import Mathlib

/-!
Verification development for the HR-Genie interview-slot negotiation core.

Shallow embedding of the two ingestion paths
(`src/mail/candidate_reply_ingest.py`, `src/mail/manager_reply_ingest.py`),
the intent-extraction client (`src/services/intent_parser_llm.py`) and the
time/tolerance utilities they share.

Modelling conventions:
* An instant is an `Int`, the number of seconds since the epoch in UTC.
  Database `TIMESTAMP` columns are naive and always hold UTC wall-clock
  values; `_ensure_aware` in the source normalizes naive datetimes to UTC,
  so stored times are modelled directly as UTC instants.
* A Python `datetime` value as produced by `datetime.fromisoformat` is
  modelled by `PyDT`: its wall-clock reading (in seconds) plus an optional
  UTC offset (`none` models a naive value).
* `datetime.fromisoformat` itself is external library code; the embedding
  takes it as an explicit function parameter `fromiso : String → Option PyDT`
  (`none` models both "no parse" and a raised `ValueError`).
-/

/-- A Python `datetime`: wall-clock seconds plus optional UTC offset
(`none` = naive). For an aware value the denoted instant is
`wall - offset`. -/
structure PyDT where
  wall : Int
  off : Option Int
deriving Repr, DecidableEq

/-- The UTC instant denoted by a `PyDT` (naive values are read as UTC,
matching `_ensure_aware`). -/
def PyDT.instant (d : PyDT) : Int :=
  d.wall - d.off.getD 0

/-- `_ensure_aware` (both ingest files): a naive datetime gets
`tzinfo=timezone.utc` attached (wall clock unchanged); an aware one is
converted with `astimezone(timezone.utc)` (instant unchanged, offset 0). -/
def ensure_aware (d : PyDT) : PyDT :=
  match d.off with
  | none => { d with off := some 0 }
  | some o => { wall := d.wall - o, off := some 0 }

/-- Python's `str.isspace` characters (ASCII portion), used by `strip()`. -/
def isPySpace (c : Char) : Bool :=
  c = ' ' || c = '\t' || c = '\n' || c = '\r' || c = '\x0b' || c = '\x0c'

/-- Python `str.strip()`: remove leading and trailing whitespace. -/
def pyStrip (s : String) : String :=
  ⟨((s.data.dropWhile isPySpace).reverse.dropWhile isPySpace).reverse⟩

/-- The `if v.endswith("Z"): v = v[:-1]` step of `_parse_iso_flexible`. -/
def stripZ (v : String) : String :=
  match v.data.getLast? with
  | some 'Z' => ⟨v.data.dropLast⟩
  | _ => v

/-- `_parse_iso_flexible` (identical in both ingest files): `None`/empty
input is falsy and yields `None`; otherwise the string is stripped, a
trailing `"Z"` removed, handed to `datetime.fromisoformat` (a raise is
modelled by `fromiso _ = none`), and the result normalized by
`_ensure_aware`. -/
def parse_iso_flexible (fromiso : String → Option PyDT) (value : Option String) :
    Option PyDT :=
  match value with
  | none => none
  | some s =>
    if s = "" then none
    else
      match fromiso (stripZ (pyStrip s)) with
      | none => none
      | some dt => some (ensure_aware dt)

/-- `_parse_iso_flexible` viewed as producing the denoted UTC instant;
the ingest code stores and compares the returned aware datetime, which
is fully described by its instant. -/
def parse_iso_instant (fromiso : String → Option PyDT) (value : Option String) :
    Option Int :=
  (parse_iso_flexible fromiso value).map PyDT.instant

/-- `_within_tolerance` (identical in both ingest files):
`abs((a - b).total_seconds()) <= minutes * 60`, over UTC instants in
seconds. -/
def within_tolerance (a b : Int) (minutes : Int) : Bool :=
  decide (|a - b| ≤ minutes * 60)

/-! ## Database rows (src/database/models.py) -/

/-- An `interview_slots` row (the columns the negotiation logic reads). -/
structure Slot where
  id : Nat
  candidateId : Nat
  proposedBy : String
  startTime : Int
  endTime : Option Int
  status : String
deriving Repr, DecidableEq

/-- `_find_matching_manager_slot` (candidate_reply_ingest.py): walk the
given slots in order; a slot whose start is within tolerance of the
candidate start is returned, except that when both the slot's end and the
candidate's end are present the ends must also be within tolerance
(otherwise the loop continues). Pure: no mutation, no storage access. -/
def find_matching_manager_slot :
    List Slot → Int → Option Int → Int → Option Slot
  | [], _, _, _ => none
  | s :: rest, candStart, candEnd, tol =>
    if within_tolerance s.startTime candStart tol then
      match s.endTime, candEnd with
      | some se, some ce =>
        if within_tolerance se ce tol then some s
        else find_matching_manager_slot rest candStart candEnd tol
      | some _, none => some s
      | none, _ => some s
    else find_matching_manager_slot rest candStart candEnd tol

/-- The match predicate of the spec's `findMatch` contract: start within
tolerance, and when both ends are present the ends within tolerance too
(end ignored when either end is absent). -/
def slot_matches (s : Slot) (candStart : Int) (candEnd : Option Int) (tol : Int) :
    Bool :=
  within_tolerance s.startTime candStart tol &&
    (match s.endTime, candEnd with
     | some se, some ce => within_tolerance se ce tol
     | _, _ => true)

/-! ## Theorems: C1, C5, C6 -/

/-- C1: `_find_matching_manager_slot` returns the first slot, in the given
order, whose start is within tolerance of the candidate start and whose
end — when both that slot's end and the candidate's end are present — is
also within tolerance; it returns `none` when no slot qualifies
(`List.find?` returns `none` exactly when no element satisfies the
predicate). The function is pure by construction: it is a plain function
of its arguments that neither mutates them nor touches any store. -/
theorem find_matching_manager_slot_is_first_match
    (slots : List Slot) (candStart : Int) (candEnd : Option Int) (tol : Int) :
    find_matching_manager_slot slots candStart candEnd tol =
      slots.find? (fun s => slot_matches s candStart candEnd tol) := by
  induction slots with
  | nil => rfl
  | cons s rest ih =>
    have hstep : find_matching_manager_slot (s :: rest) candStart candEnd tol =
        (if slot_matches s candStart candEnd tol then some s
         else find_matching_manager_slot rest candStart candEnd tol) := by
      simp only [find_matching_manager_slot, slot_matches]
      by_cases hst : within_tolerance s.startTime candStart tol
      · simp only [hst, if_true, Bool.true_and]
        cases hse : s.endTime with
        | none => simp
        | some se =>
          cases hce : candEnd with
          | none => simp
          | some ce => by_cases hend : within_tolerance se ce tol <;> simp [hend]
      · simp [hst]
    rw [hstep, ih]
    by_cases hp : slot_matches s candStart candEnd tol
    · rw [if_pos hp]
      simp [List.find?, hp]
    · rw [if_neg hp]
      rw [Bool.not_eq_true] at hp
      simp [List.find?, hp]

/-- C5: `_within_tolerance a b 5` holds iff `|a - b| ≤ 300` seconds
(boundary inclusive: true at exactly 300, false at 301), and the relation
is symmetric and reflexive. -/
theorem within_tolerance_iff_300s :
    (∀ a b : Int, within_tolerance a b 5 = true ↔ |a - b| ≤ 300) ∧
    (∀ a b : Int, within_tolerance a b 5 = within_tolerance b a 5) ∧
    (∀ a : Int, within_tolerance a a 5 = true) ∧
    within_tolerance 0 300 5 = true ∧
    within_tolerance 0 301 5 = false := by
  refine ⟨?_, ?_, ?_, by decide, by decide⟩
  · intro a b
    simp only [within_tolerance, decide_eq_true_eq]
    norm_num
  · intro a b
    simp only [within_tolerance, abs_sub_comm a b]
  · intro a
    simp [within_tolerance]

/-- C6: `_parse_iso_flexible` is total (a value is returned for every
input, by construction in this embedding; the one library call that can
raise is wrapped in `try/except` and modelled by `fromiso _ = none`).
For every behaviour of `datetime.fromisoformat` and every input:
the result is `none` or an aware datetime normalized to UTC (offset 0);
`None`/empty input yields `none`; a parse with no explicit offset — the
input's trailing `"Z"` having been stripped first — is interpreted as UTC
with its wall clock unchanged; and an unparsable input yields `none`
rather than an exception. -/
theorem parse_iso_flexible_total_utc
    (fromiso : String → Option PyDT) :
    (∀ v d, parse_iso_flexible fromiso v = some d → d.off = some 0) ∧
    (parse_iso_flexible fromiso none = none ∧
      parse_iso_flexible fromiso (some "") = none) ∧
    (∀ s w, s ≠ "" → fromiso (stripZ (pyStrip s)) = some ⟨w, none⟩ →
      parse_iso_flexible fromiso (some s) = some ⟨w, some 0⟩) ∧
    (∀ s, s ≠ "" → fromiso (stripZ (pyStrip s)) = none →
      parse_iso_flexible fromiso (some s) = none) := by
  refine ⟨?_, ⟨rfl, rfl⟩, ?_, ?_⟩
  · intro v d h
    match v with
    | none => simp [parse_iso_flexible] at h
    | some s =>
      simp only [parse_iso_flexible] at h
      by_cases hs : s = ""
      · simp [hs] at h
      · simp only [hs, if_false] at h
        cases hf : fromiso (stripZ (pyStrip s)) with
        | none => rw [hf] at h; simp at h
        | some dt =>
          rw [hf] at h
          simp only [Option.some.injEq] at h
          subst h
          cases ho : dt.off with
          | none => simp [ensure_aware, ho]
          | some o => simp [ensure_aware, ho]
  · intro s w hs hf
    simp [parse_iso_flexible, hs, hf, ensure_aware]
  · intro s hs hf
    simp [parse_iso_flexible, hs, hf]

/-- Witness for C6 at a concrete `fromiso` and concrete strings: the
clauses with hypotheses are discharged at `s = "t"` with a table lookup
oracle. -/
theorem parse_iso_flexible_total_utc_witness :
    (parse_iso_flexible (fun s => if s = "t" then some ⟨7, none⟩ else none)
        (some "t") = some ⟨7, some 0⟩) ∧
    (parse_iso_flexible (fun s => if s = "t" then some ⟨7, none⟩ else none)
        (some "u") = none) := by
  constructor
  · exact (parse_iso_flexible_total_utc
      (fun s => if s = "t" then some ⟨7, none⟩ else none)).2.2.1
      "t" 7 (by decide) (by decide)
  · exact (parse_iso_flexible_total_utc
      (fun s => if s = "t" then some ⟨7, none⟩ else none)).2.2.2
      "u" (by decide) (by decide)

/-! ## Intent extraction (src/services/intent_parser_llm.py)

`parse_intent_llm` calls the LLM, coerces its reply to a JSON dict and
builds `(intent, meta)`. The external pieces are modelled by
`Option CoercedData`: `none` models any exception inside the `try` block
(the LLM call raising, a malformed response object), and `CoercedData`
models the dict produced by `_coerce_json` (malformed JSON gives `{}`,
i.e. every field absent), restricted to the six lookups the code makes. -/

/-- A `{start, end?}` entry of a would-be `proposed_slots` list in a meta
dict (as read by the ingest loops: `s.get("start")`, `s.get("end")`). -/
structure SlotPair where
  pstart : Option String
  pend : Option String
deriving Repr, DecidableEq

/-- A JSON value stored in a meta dict: the shapes the code can store or
read (strings, integers, and a list of `{start, end}` dicts). -/
inductive MetaVal where
  | str (s : String)
  | int (n : Int)
  | slots (l : List SlotPair)
deriving Repr, DecidableEq

/-- `meta.get(k)` on a dict modelled as a key-ordered association list. -/
def metaGet (m : List (String × MetaVal)) (k : String) : Option MetaVal :=
  (m.find? (fun kv => decide (kv.1 = k))).map (·.2)

/-- Python `str.upper()` (ASCII model). -/
def pyUpper (s : String) : String :=
  ⟨s.data.map Char.toUpper⟩

/-- `ALLOWED_INTENTS` from intent_parser_llm.py. -/
def ALLOWED_INTENTS : List String :=
  ["MEETING_SCHEDULED", "PROCEED", "REJECTION", "SALARY_DISCUSSION", "OTHER"]

/-- The regex step `re.sub(r":\d{2}(?:(?:\+\d{2}:\d{2})|Z)?$", "", s)`:
nine-character trial `":DD+DD:DD"` at the end of the string (reversed
view). The three possible match shapes have fixed lengths and pairwise
incompatible endings, so trying the longest first equals the regex's
leftmost match ending at `$`. -/
def trySec9 (r : List Char) : Option (List Char) :=
  match r with
  | a :: b :: ':' :: c :: d :: '+' :: e :: f :: ':' :: rest =>
    if a.isDigit && b.isDigit && c.isDigit && d.isDigit && e.isDigit && f.isDigit
    then some rest else none
  | _ => none

/-- Four-character trial `":DDZ"` at the end (reversed view). -/
def trySec4 (r : List Char) : Option (List Char) :=
  match r with
  | 'Z' :: a :: b :: ':' :: rest =>
    if a.isDigit && b.isDigit then some rest else none
  | _ => none

/-- Three-character trial `":DD"` at the end (reversed view). -/
def trySec3 (r : List Char) : Option (List Char) :=
  match r with
  | a :: b :: ':' :: rest =>
    if a.isDigit && b.isDigit then some rest else none
  | _ => none

/-- Drop a trailing seconds block (with optional `+HH:MM`/`Z` marker), as
the regex sub in parse_intent_llm does. -/
def strip_seconds_suffix (s : String) : String :=
  let r := s.data.reverse
  match trySec9 r with
  | some rest => ⟨rest.reverse⟩
  | none =>
    match trySec4 r with
    | some rest => ⟨rest.reverse⟩
    | none =>
      match trySec3 r with
      | some rest => ⟨rest.reverse⟩
      | none => s

/-- `meeting_iso = re.sub(...) if len(meeting_iso) > 16 else meeting_iso`. -/
def normalize_meeting_iso (s : String) : String :=
  if s.length > 16 then strip_seconds_suffix s else s

/-- The dict produced by `_coerce_json`, seen through the six lookups
`parse_intent_llm` performs. `intentRaw = some s`: `data.get("intent")`
was truthy and `str()` of it is `s` (`none`: absent or falsy).
`meetingIso`/`currency`/`notes = some s`: the key held a string `s`
(possibly blank; the `isinstance(..., str)` checks passed).
`salaryAmount = some n`: the key was not `None` and `int()` returned `n`
(`none` also covers `int()` raising, which the inner `try` swallows). -/
structure CoercedData where
  intentRaw : Option String
  meetingIso : Option String
  salaryAmount : Option Int
  currency : Option String
  notes : Option String
deriving Repr, DecidableEq

/-- `if intent not in ALLOWED_INTENTS: intent = "OTHER"`. -/
def allowed_or_other (s : String) : String :=
  if s ∈ ALLOWED_INTENTS then s else "OTHER"

/-- The meta dict built field by field (insertion order preserved; the
four keys are distinct, so the dict is the association list). -/
def build_meta (d : CoercedData) : List (String × MetaVal) :=
  (match d.meetingIso with
   | some s =>
     if pyStrip s ≠ "" then
       [("meeting_iso", MetaVal.str (normalize_meeting_iso (pyStrip s)))]
     else []
   | none => []) ++
  (match d.salaryAmount with
   | some n => [("salary_amount", MetaVal.int n)]
   | none => []) ++
  (match d.currency with
   | some s => if pyStrip s ≠ "" then [("currency", MetaVal.str (pyUpper (pyStrip s)))] else []
   | none => []) ++
  (match d.notes with
   | some s => if pyStrip s ≠ "" then [("notes", MetaVal.str (pyStrip s))] else []
   | none => [])

/-- The guardrail: `MEETING_SCHEDULED` with no `meeting_iso` in meta is
downgraded to `PROCEED`. -/
def downgrade_no_time (intent : String) (meta : List (String × MetaVal)) : String :=
  if intent = "MEETING_SCHEDULED" then
    if metaGet meta "meeting_iso" = none then "PROCEED" else intent
  else intent

/-- `parse_intent_llm`: on any exception (`resp = none`) return
`("OTHER", {})`; otherwise normalize the claimed intent
(`str(... or "OTHER").strip().upper()`, clamp to `ALLOWED_INTENTS`),
build the meta dict, and apply the no-time downgrade. -/
def parse_intent_llm (resp : Option CoercedData) :
    String × List (String × MetaVal) :=
  match resp with
  | none => ("OTHER", [])
  | some d =>
    let intent := allowed_or_other (pyUpper (pyStrip (d.intentRaw.getD "OTHER")))
    let meta := build_meta d
    (downgrade_no_time intent meta, meta)

/-! ## The meta dict as the ingest loops read it -/

/-- Typed view of a meta dict through the `meta.get(...)` reads the two
ingest loops perform. `meetingIso`: the value under `"meeting_iso"` when
it is a string (a non-string truthy value there would crash
`_parse_iso_flexible`'s `.strip()` and is never produced, see
`parse_intent_llm_meta_keys`). `proposedSlots`: the value under
`"proposed_slots"` when it is a list (`isinstance(..., list)`). -/
structure MetaR where
  meetingIso : Option String
  proposedSlots : Option (List SlotPair)
  salaryAmount : Option Int
  currency : Option String
  notes : Option String
deriving Repr, DecidableEq

/-- Read a meta association list into the typed view. -/
def metaR_of (m : List (String × MetaVal)) : MetaR where
  meetingIso := match metaGet m "meeting_iso" with
    | some (MetaVal.str s) => some s
    | _ => none
  proposedSlots := match metaGet m "proposed_slots" with
    | some (MetaVal.slots l) => some l
    | _ => none
  salaryAmount := match metaGet m "salary_amount" with
    | some (MetaVal.int n) => some n
    | _ => none
  currency := match metaGet m "currency" with
    | some (MetaVal.str s) => some s
    | _ => none
  notes := match metaGet m "notes" with
    | some (MetaVal.str s) => some s
    | _ => none

/-- The stated-time collection both ingest loops run (candidate file
lines 260–267, manager file lines 470–477): `meeting_iso` first (if
truthy), then every `proposed_slots` entry with a truthy `start`.
An empty meta dict is falsy and contributes nothing, which coincides
with both fields reading as absent. -/
def collect_stated_slots (meta : MetaR) : List SlotPair :=
  (match meta.meetingIso with
   | some s => if s ≠ "" then [⟨some s, none⟩] else []
   | none => []) ++
  (match meta.proposedSlots with
   | some l =>
     l.filterMap (fun p =>
       match p.pstart with
       | some s => if s ≠ "" then some p else none
       | none => none)
   | none => [])

/-! ## Theorems: C7, C10 -/

/-- The clamp step always lands in `ALLOWED_INTENTS`. -/
theorem allowed_or_other_mem (s : String) :
    allowed_or_other s ∈ ALLOWED_INTENTS := by
  unfold allowed_or_other
  by_cases h : s ∈ ALLOWED_INTENTS
  · rwa [if_pos h]
  · rw [if_neg h]; decide

/-- The no-time downgrade keeps the intent in `ALLOWED_INTENTS`. -/
theorem downgrade_no_time_mem (i : String) (meta : List (String × MetaVal))
    (h : i ∈ ALLOWED_INTENTS) : downgrade_no_time i meta ∈ ALLOWED_INTENTS := by
  unfold downgrade_no_time
  split
  · split
    · decide
    · assumption
  · assumption

/-- C7: for every input message and extraction-service behaviour —
including malformed JSON (all lookups absent) and a raising service call
(`resp = none`) — `parse_intent_llm` returns an intent in
`{MEETING_SCHEDULED, PROCEED, REJECTION, SALARY_DISCUSSION, OTHER}`, and
on a raise it returns `OTHER` with an empty meta dict instead of
propagating (totality of the embedding is the never-raises guarantee). -/
theorem parse_intent_llm_intent_allowed :
    (∀ resp, (parse_intent_llm resp).1 ∈ ALLOWED_INTENTS) ∧
    parse_intent_llm none = ("OTHER", []) := by
  refine ⟨?_, rfl⟩
  intro resp
  cases resp with
  | none => decide
  | some d =>
    simp only [parse_intent_llm]
    exact downgrade_no_time_mem _ _ (allowed_or_other_mem _)

/-- Every key `parse_intent_llm` can put in the meta dict. -/
def META_KEYS : List String :=
  ["meeting_iso", "salary_amount", "currency", "notes"]

/-- Every entry of `build_meta` carries one of the four known keys. -/
theorem build_meta_keys (d : CoercedData) :
    ∀ kv ∈ build_meta d, kv.1 ∈ META_KEYS := by
  intro kv h
  simp only [build_meta, List.mem_append] at h
  rcases h with ((h | h) | h) | h
  · cases hm : d.meetingIso with
    | none => rw [hm] at h; simp at h
    | some s =>
      rw [hm] at h
      by_cases hp : pyStrip s ≠ ""
      · simp [hp] at h
        rw [h]
        show "meeting_iso" ∈ META_KEYS
        decide
      · simp [hp] at h
  · cases hm : d.salaryAmount with
    | none => rw [hm] at h; simp at h
    | some n =>
      rw [hm] at h
      rw [List.mem_singleton] at h
      rw [h]
      show "salary_amount" ∈ META_KEYS
      decide
  · cases hm : d.currency with
    | none => rw [hm] at h; simp at h
    | some s =>
      rw [hm] at h
      by_cases hp : pyStrip s ≠ ""
      · simp [hp] at h
        rw [h]
        show "currency" ∈ META_KEYS
        decide
      · simp [hp] at h
  · cases hm : d.notes with
    | none => rw [hm] at h; simp at h
    | some s =>
      rw [hm] at h
      by_cases hp : pyStrip s ≠ ""
      · simp [hp] at h
        rw [h]
        show "notes" ∈ META_KEYS
        decide
      · simp [hp] at h

/-- `build_meta` never creates a `"proposed_slots"` key. -/
theorem build_meta_no_proposed (d : CoercedData) :
    metaGet (build_meta d) "proposed_slots" = none := by
  unfold metaGet
  rw [List.find?_eq_none.mpr]
  · rfl
  · intro kv hmem hcontr
    have hk := build_meta_keys d kv hmem
    have : kv.1 = "proposed_slots" := of_decide_eq_true hcontr
    rw [this] at hk
    revert hk; decide

/-- A meta dict with no `proposed_slots` list yields at most one stated
time in the collection step. -/
theorem collect_stated_slots_short (meta : MetaR)
    (h : meta.proposedSlots = none) :
    (collect_stated_slots meta).length ≤ 1 := by
  unfold collect_stated_slots
  rw [h]
  cases hm : meta.meetingIso with
  | none => simp
  | some s =>
    by_cases hp : s ≠ "" <;> simp [hp]

/-- C10: the meta dict returned by `parse_intent_llm` only ever holds the
keys `meeting_iso`, `salary_amount`, `currency`, `notes`; it never holds
a `proposed_slots` list, so the `proposed_slots` branches of the two
ingest loops read an absent field and each ingested message contributes
at most one candidate-stated time. -/
theorem parse_intent_llm_no_proposed_slots :
    (∀ resp, ∀ kv ∈ (parse_intent_llm resp).2, kv.1 ∈ META_KEYS) ∧
    (∀ resp, metaGet (parse_intent_llm resp).2 "proposed_slots" = none) ∧
    (∀ resp, (metaR_of (parse_intent_llm resp).2).proposedSlots = none) ∧
    (∀ resp, (collect_stated_slots (metaR_of (parse_intent_llm resp).2)).length ≤ 1) := by
  have hview : ∀ resp, (metaR_of (parse_intent_llm resp).2).proposedSlots = none := by
    intro resp
    cases resp with
    | none => rfl
    | some d =>
      simp only [parse_intent_llm, metaR_of, build_meta_no_proposed d]
  refine ⟨?_, ?_, hview, fun resp => collect_stated_slots_short _ (hview resp)⟩
  · intro resp kv h
    cases resp with
    | none => simp [parse_intent_llm] at h
    | some d => exact build_meta_keys d kv h
  · intro resp
    cases resp with
    | none => rfl
    | some d => exact build_meta_no_proposed d

/-- Witness for C10 at a concrete service response carrying a meta entry:
the key-membership clause is discharged at the entry the parser actually
produced. -/
theorem parse_intent_llm_no_proposed_slots_witness :
    ("notes", MetaVal.str "hi") ∈
        (parse_intent_llm (some ⟨some "OTHER", none, none, none, some "hi"⟩)).2 ∧
    ("notes" : String) ∈ META_KEYS ∧
    metaGet (parse_intent_llm (some ⟨some "OTHER", none, none, none, some "hi"⟩)).2
        "proposed_slots" = none := by
  refine ⟨by decide, ?_, ?_⟩
  · exact parse_intent_llm_no_proposed_slots.1
      (some ⟨some "OTHER", none, none, none, some "hi"⟩)
      ("notes", MetaVal.str "hi") (by decide)
  · exact parse_intent_llm_no_proposed_slots.2.1
      (some ⟨some "OTHER", none, none, none, some "hi"⟩)

/-! ## The `_QUICK_CONFIRM` regex (manager_reply_ingest.py lines 36–39)

`\b(i\s*agree|agree|works\s*for\s*me|sounds\s*good|ok(?:ay)?|confirmed|`
`let'?s\s+go\s+with\s+that)\b` with `re.IGNORECASE`, used via `.search`.
Modelled by a direct matcher over the character list (ASCII portion of
`\s`/`\w`): every alternative starts and ends with a word character, so
the leading `\b` holds iff the previous character is absent or non-word
and the trailing `\b` iff the next character is absent or non-word.
The optional groups `(?:ay)?` and `'?` are expanded into separate
alternatives; for a boolean search this is equivalent to backtracking,
and `\s*`/`\s+` before a non-space literal match a maximal whitespace
run deterministically. -/

/-- A regex token of the quick-confirm pattern. -/
inductive RTok where
  | lit (cs : List Char)
  | ws0
  | ws1
deriving Repr

/-- `\w` (ASCII portion): letters, digits, underscore. -/
def isWordChar (c : Char) : Bool :=
  c.isAlphanum || c = '_'

/-- Case-insensitive literal consumption. -/
def dropLit : List Char → List Char → Option (List Char)
  | [], cs => some cs
  | _ :: _, [] => none
  | p :: ps, c :: cs => if c.toLower = p.toLower then dropLit ps cs else none

/-- Match a token sequence at the front of the input. -/
def matchToks : List RTok → List Char → Option (List Char)
  | [], cs => some cs
  | RTok.lit l :: ts, cs =>
    match dropLit l cs with
    | some rest => matchToks ts rest
    | none => none
  | RTok.ws0 :: ts, cs => matchToks ts (cs.dropWhile isPySpace)
  | RTok.ws1 :: ts, cs =>
    match cs with
    | [] => none
    | c :: rest =>
      if isPySpace c then matchToks ts (rest.dropWhile isPySpace) else none

/-- The alternatives of `_QUICK_CONFIRM`, optional groups expanded. -/
def quickConfirmPatterns : List (List RTok) :=
  [[RTok.lit "i".data, RTok.ws0, RTok.lit "agree".data],
   [RTok.lit "agree".data],
   [RTok.lit "works".data, RTok.ws0, RTok.lit "for".data, RTok.ws0,
    RTok.lit "me".data],
   [RTok.lit "sounds".data, RTok.ws0, RTok.lit "good".data],
   [RTok.lit "okay".data],
   [RTok.lit "ok".data],
   [RTok.lit "confirmed".data],
   [RTok.lit "let's".data, RTok.ws1, RTok.lit "go".data, RTok.ws1,
    RTok.lit "with".data, RTok.ws1, RTok.lit "that".data],
   [RTok.lit "lets".data, RTok.ws1, RTok.lit "go".data, RTok.ws1,
    RTok.lit "with".data, RTok.ws1, RTok.lit "that".data]]

/-- Trailing `\b`: the rest of the input starts with a non-word
character or is empty. -/
def wordBoundaryAfter (rest : List Char) : Bool :=
  match rest with
  | [] => true
  | c :: _ => !(isWordChar c)

/-- Does some alternative match at this position (with its trailing
boundary)? -/
def quickConfirmHere (cs : List Char) : Bool :=
  quickConfirmPatterns.any (fun p =>
    match matchToks p cs with
    | some rest => wordBoundaryAfter rest
    | none => false)

/-- `.search`: try every position; the leading `\b` holds iff the
previous character (if any) is non-word. -/
def quickConfirmSearch (prev : Option Char) : List Char → Bool
  | [] => false
  | c :: rest =>
    ((match prev with
      | none => true
      | some p => !(isWordChar p)) && quickConfirmHere (c :: rest)) ||
    quickConfirmSearch (some c) rest

/-- `bool(_QUICK_CONFIRM.search(body))`. -/
def quick_confirm (body : String) : Bool :=
  quickConfirmSearch none body.data

/-! ## Database state and effects

The persistence layer is modelled as the in-memory rows the two ingestion
loops read and write. Lists of slots are kept newest-first (`created_at
DESC` ordering): a freshly inserted slot is prepended. Outbound side
effects (mail transport, calendar transport, mark-read) are collected in
an effect trace; `send_email_html` / `create_event_with_meet` calls are
recorded, matching their treatment as black-box collaborators. -/

/-- A `messages` row (the columns the negotiation logic depends on).
`gmail_message_id` is unique; inserting a duplicate raises
`IntegrityError` at `session.flush()`. -/
structure MsgRec where
  gmailId : String
  direction : String
  intent : Option String
deriving Repr, DecidableEq

/-- A `candidate_status` row. -/
structure CandStatusRec where
  candidateId : Nat
  currentStatus : Option String
  finalMeetingTime : Option Int
deriving Repr, DecidableEq

/-- A `conversation_events` row (type plus the slot reference used by the
acceptance events). -/
structure EventRec where
  candidateId : Nat
  eventType : String
  slotId : Option Nat
deriving Repr, DecidableEq

/-- The mutable database state. `slots` is newest-first. `nextSlotId`
models the id sequence. -/
structure DB where
  slots : List Slot
  msgs : List MsgRec
  statuses : List CandStatusRec
  events : List EventRec
  nextSlotId : Nat
deriving Repr, DecidableEq

/-- A `candidates` row (the fields the ingest loops read). -/
structure Cand where
  id : Nat
  name : String
  email : String
  position : String
deriving Repr, DecidableEq

/-- A `hiring_managers` row (the fields the ingest loops read). -/
structure Mgr where
  id : String
  name : String
  email : String
deriving Repr, DecidableEq

/-- One fetched transport message (`get_emails_from_sender` item; absent
subject/body are already normalized to `""` by the `or ""` reads). -/
structure Email where
  id : String
  threadId : String
  fromAddr : String
  subject : String
  body : String
deriving Repr, DecidableEq

/-- The dict `create_event_with_meet` returns. The service always returns
a dict (success or failure shape), so the callers' `if calendar_result:`
test is always truthy — a Python dict object is truthy. -/
structure CalRes where
  success : Bool
  eventId : Option String
  hangoutLink : Option String
deriving Repr, DecidableEq

/-- An observable outbound side effect. -/
inductive Eff where
  | emailSent (dest : String) (subject : String)
  | calendarCreated (startT : Int) (endT : Int)
  | markRead (id : String)
deriving Repr, DecidableEq

/-- Outcome of one message's processing: counted in `processed`,
`skipped` or `errors`. -/
inductive PMOut where
  | processed
  | skippedMsg
  | errored
deriving Repr, DecidableEq

/-- `session.query(CandidateStatus).filter_by(candidate_id=...).first()`,
falling back to a freshly added empty row. -/
def statusOrNew (db : DB) (cid : Nat) : CandStatusRec :=
  match db.statuses.find? (fun s => decide (s.candidateId = cid)) with
  | some s => s
  | none => ⟨cid, none, none⟩

/-- Write back a (possibly new) status row. -/
def upsertStatus (db : DB) (s : CandStatusRec) : DB :=
  if db.statuses.any (fun t => decide (t.candidateId = s.candidateId)) then
    { db with statuses :=
        db.statuses.map (fun t => if t.candidateId = s.candidateId then s else t) }
  else
    { db with statuses := s :: db.statuses }

/-- `session.add(ConversationEvent(...))`. -/
def addEvent (db : DB) (cid : Nat) (ty : String) (slotId : Option Nat) : DB :=
  { db with events := ⟨cid, ty, slotId⟩ :: db.events }

/-- `session.add(Message(...))` (after the duplicate-id guard). -/
def addMsg (db : DB) (m : MsgRec) : DB :=
  { db with msgs := m :: db.msgs }

/-- `session.add(InterviewSlot(...))`: newest-first insertion with a
fresh id. -/
def addSlot (db : DB) (cid : Nat) (by_ : String) (startT : Int)
    (endT : Option Int) : DB :=
  { db with
    slots := ⟨db.nextSlotId, cid, by_, startT, endT, "proposed"⟩ :: db.slots,
    nextSlotId := db.nextSlotId + 1 }

/-- Mutate the slot row with the given id (ORM attribute assignment). -/
def updateSlot (db : DB) (sid : Nat) (f : Slot → Slot) : DB :=
  { db with slots := db.slots.map (fun s => if s.id = sid then f s else s) }

/-- `_latest_open_applicant_slots`: applicant-proposed rows still
`proposed`, newest first, capped. -/
def latest_open_applicant_slots (db : DB) (cid : Nat) (limit : Nat) :
    List Slot :=
  ((db.slots.filter (fun s =>
      decide (s.candidateId = cid) && decide (s.proposedBy = "applicant") &&
      decide (s.status = "proposed"))).take limit)

/-- `_latest_open_manager_slots`: manager-proposed rows still `proposed`,
newest first, capped. -/
def latest_open_manager_slots (db : DB) (cid : Nat) (limit : Nat) :
    List Slot :=
  ((db.slots.filter (fun s =>
      decide (s.candidateId = cid) && decide (s.proposedBy = "manager") &&
      decide (s.status = "proposed"))).take limit)

/-! ## Candidate-reply ingestion, per message
(candidate_reply_ingest.py lines 223–417) -/

/-- `en = _parse_iso_flexible(s.get("end")) if s.get("end") else None`:
the end is parsed only when the raw value is truthy. -/
def parse_pend (fromiso : String → Option PyDT) (p : SlotPair) : Option Int :=
  match p.pend with
  | some z => if z ≠ "" then parse_iso_instant fromiso (some z) else none
  | none => none

/-- Python truthiness of `"pos" or "default"` on strings. -/
def pyOr (s dflt : String) : String :=
  if s = "" then dflt else s

/-- A Python dict object is always truthy; `create_event_with_meet`
always returns a dict (success or failure shape), so the callers'
`if calendar_result:` test always takes the then-branch. -/
def dict_truthy (_ : CalRes) : Bool := true

/-- The candidate-side matching loop (lines 269–282): walk the stated
times in order; skip unparseable starts; return the first manager slot
`_find_matching_manager_slot` accepts, together with the candidate end
stated alongside (used for the backfill). -/
def first_matching_stated_time (fromiso : String → Option PyDT)
    (openSlots : List Slot) : List SlotPair → Option (Slot × Option Int)
  | [] => none
  | p :: rest =>
    match parse_iso_instant fromiso p.pstart with
    | none => first_matching_stated_time fromiso openSlots rest
    | some st =>
      let en := parse_pend fromiso p
      match find_matching_manager_slot openSlots st en 5 with
      | some m => some (m, en)
      | none => first_matching_stated_time fromiso openSlots rest

/-- Lines 331–346: one new applicant-proposed `InterviewSlot` per stated
time with a parseable start (no end ≤ start check on this side); returns
the updated state and how many were created. -/
def create_applicant_slots (fromiso : String → Option PyDT) (db : DB)
    (cid : Nat) : List SlotPair → DB × Nat
  | [] => (db, 0)
  | p :: rest =>
    match parse_iso_instant fromiso p.pstart with
    | none => create_applicant_slots fromiso db cid rest
    | some st =>
      let en := parse_pend fromiso p
      let r := create_applicant_slots fromiso (addSlot db cid "applicant" st en)
        cid rest
      (r.1, r.2 + 1)

/-- One candidate inbound message, as processed by the loop body of
`ingest_candidate_replies`. `openMgrSlots` is the list loaded once per
candidate before the message loop (lines 221); `intent`/`meta` are the
`parse_intent_llm` result for this body and `cal` the calendar-service
reply; `fromiso` is the datetime parser. A duplicate
`messages.gmail_message_id` makes `session.flush()` raise
`IntegrityError`, which the per-message handler swallows (`errors += 1`,
mark-read attempted when the id is truthy) before any slot or email
side effect. -/
def ingest_candidate_msg (fromiso : String → Option PyDT) (db : DB)
    (c : Cand) (mgr : Mgr) (openMgrSlots : List Slot) (e : Email)
    (intent : String) (meta : MetaR) (cal : CalRes) (unreadOnly : Bool) :
    DB × List Eff × PMOut :=
  if db.msgs.any (fun m => decide (m.gmailId = e.id)) then
    (db, (if unreadOnly && e.id ≠ "" then [Eff.markRead e.id] else []),
      PMOut.errored)
  else
    let db := addMsg db ⟨e.id, "inbound", some intent⟩
    let st0 := statusOrNew db c.id
    let db := upsertStatus db st0
    let stated := collect_stated_slots meta
    match first_matching_stated_time fromiso openMgrSlots stated with
    | some (m, en) =>
      -- lines 275–282: backfill a missing end, mark accepted, cache status
      let acc : Slot := { m with
        endTime := if en.isSome && m.endTime = none then en else m.endTime,
        status := "accepted" }
      let db := updateSlot db m.id (fun _ => acc)
      let db := upsertStatus db { st0 with
        currentStatus := some "Interview Confirmed",
        finalMeetingTime := some m.startTime }
      let db := addEvent db c.id "CANDIDATE_ACCEPTED" (some m.id)
      let effs :=
        [Eff.calendarCreated acc.startTime
          (acc.endTime.getD (acc.startTime + 3600))] ++
        (if dict_truthy cal then
          [Eff.emailSent c.email ("Interview scheduled – " ++ c.position),
           Eff.emailSent mgr.email ("Interview scheduled with " ++ c.name)]
         else []) ++
        [Eff.emailSent mgr.email ("Interview confirmed – " ++ c.name)] ++
        (if unreadOnly then [Eff.markRead e.id] else [])
      (db, effs, PMOut.processed)
    | none =>
      let r := create_applicant_slots fromiso db c.id stated
      let db := r.1
      if r.2 > 0 then
        let db := upsertStatus db { st0 with
          currentStatus := some "Awaiting Manager Confirmation" }
        let db := addEvent db c.id "CANDIDATE_PROPOSED" none
        let effs :=
          [Eff.emailSent mgr.email ("Candidate proposed new time – " ++ c.name)] ++
          (if unreadOnly then [Eff.markRead e.id] else [])
        (db, effs, PMOut.processed)
      else
        let db := addEvent db c.id "CANDIDATE_REPLIED_NO_TIME" none
        let effs :=
          [Eff.emailSent mgr.email
            ("Candidate replied (no clear time) – " ++ c.name)] ++
          (if unreadOnly then [Eff.markRead e.id] else [])
        (db, effs, PMOut.processed)

/-! ## Manager-reply ingestion, per message
(manager_reply_ingest.py lines 326–582) -/

/-- The `is_llm_confirm` intent set (line 381–383). `parse_intent_llm`
can never return one of these (see `parse_intent_llm_intent_allowed`),
but the check is in the code and is modelled as written. -/
def ALLOWED_CONFIRM : List String :=
  ["CONFIRM", "CONFIRMED", "AGREE", "AGREED", "ACCEPT", "ACCEPTED"]

/-- `meta.get("salary_amount")` truthiness (an int is truthy iff ≠ 0). -/
def salary_truthy (m : MetaR) : Bool :=
  match m.salaryAmount with
  | some n => decide (n ≠ 0)
  | none => false

/-- `meta.get("meeting_iso")` truthiness (a string is truthy iff ≠ ""). -/
def meeting_iso_truthy (m : MetaR) : Bool :=
  match m.meetingIso with
  | some s => decide (s ≠ "")
  | none => false

/-- `meta.get("proposed_slots")` truthiness (a list is truthy iff
nonempty). -/
def proposed_slots_truthy (m : MetaR) : Bool :=
  match m.proposedSlots with
  | some l => decide (l ≠ [])
  | none => false

/-- Lines 470–495: one manager-proposed slot per stated time with a
parseable start, skipping any with end ≤ start; returns the updated
state and how many were created (`created_any`). -/
def create_manager_slots (fromiso : String → Option PyDT) (db : DB)
    (cid : Nat) : List SlotPair → DB × Nat
  | [] => (db, 0)
  | p :: rest =>
    match parse_iso_instant fromiso p.pstart with
    | none => create_manager_slots fromiso db cid rest
    | some st =>
      match parse_pend fromiso p with
      | some en =>
        if en ≤ st then create_manager_slots fromiso db cid rest
        else
          let r := create_manager_slots fromiso
            (addSlot db cid "manager" st (some en)) cid rest
          (r.1, r.2 + 1)
      | none =>
        let r := create_manager_slots fromiso
          (addSlot db cid "manager" st none) cid rest
        (r.1, r.2 + 1)

/-- Lines 388–404: the restated time the manager's message carries
(`meeting_iso` first, else the first `proposed_slots` entry with a
truthy start), as `(target_start, target_end)`. An empty meta dict has
no truthy field, so the `if meta else None` guard coincides with the
lookups. -/
def manager_target (fromiso : String → Option PyDT) (meta : MetaR) :
    Option Int × Option Int :=
  match parse_iso_instant fromiso meta.meetingIso with
  | some t => (some t, none)
  | none =>
    match meta.proposedSlots with
    | some l =>
      match l.find? (fun p =>
          match p.pstart with
          | some s => decide (s ≠ "")
          | none => false) with
      | some p => (parse_iso_instant fromiso p.pstart, parse_pend fromiso p)
      | none => (none, none)
    | none => (none, none)

/-- Lines 397–407: the slot the confirm-like branch will accept — the
applicant slot whose start matches the restated time within 5 minutes
(with the stated end backfilled onto a slot that lacks one), else the
most recent open applicant slot, else nothing. -/
def manager_match_slot (fromiso : String → Option PyDT)
    (applicantSlots : List Slot) (meta : MetaR) : Option Slot :=
  let tg := manager_target fromiso meta
  let matched : Option Slot :=
    match tg.1 with
    | some t =>
      applicantSlots.find? (fun (s : Slot) => within_tolerance s.startTime t 5)
    | none => none
  match matched with
  | some s =>
    some (if tg.2.isSome && s.endTime = none then { s with endTime := tg.2 }
          else s)
  | none => applicantSlots.head?

/-- One manager inbound message, as processed by the loop body of
`ingest_manager_replies`. `cand` is the heuristic
`_resolve_candidate_for_manager` result (`none` → skipped and marked
read). In the confirm-like acceptance path, `session.commit()` (line
426) persists the acceptance, the status cache and the
`MANAGER_ACCEPTED` event; the next statement (line 429) is the bare
`from google_calendar_service import create_event_with_meet`, and with
the repository's imports rooted at `src` the module lives at
`services.google_calendar_service`, so this raises
`ModuleNotFoundError`. The per-message handler swallows it
(`errors += 1`, mark-read attempted when the id is truthy): no calendar
event is created, no email is sent, and the later intent branches are
skipped. `cal` models the calendar-service reply; the manager loop
never reaches that call. -/
def ingest_manager_msg (fromiso : String → Option PyDT) (db : DB)
    (cand : Option Cand) (mgr : Mgr) (e : Email) (intent : String)
    (meta : MetaR) (_cal : CalRes) (unreadOnly : Bool) :
    DB × List Eff × PMOut :=
  match cand with
  | none =>
    (db, (if unreadOnly then [Eff.markRead e.id] else []), PMOut.skippedMsg)
  | some c =>
    if db.msgs.any (fun m => decide (m.gmailId = e.id)) then
      (db, (if unreadOnly && e.id ≠ "" then [Eff.markRead e.id] else []),
        PMOut.errored)
    else
      let db := addMsg db ⟨e.id, "inbound", some intent⟩
      let db := addEvent db c.id intent none
      let st0 := statusOrNew db c.id
      let db := upsertStatus db st0
      let isQuickAgree := quick_confirm e.body
      let isLlmConfirm := pyUpper intent ∈ ALLOWED_CONFIRM
      let confirmBranch : Option (DB × List Eff × PMOut) :=
        if isQuickAgree || isLlmConfirm then
          let applicantSlots := latest_open_applicant_slots db c.id 5
          match manager_match_slot fromiso applicantSlots meta with
          | some ms =>
            let acc : Slot := { ms with status := "accepted" }
            let db := updateSlot db ms.id (fun _ => acc)
            let db := upsertStatus db { st0 with
              currentStatus := some "Interview Confirmed",
              finalMeetingTime := some ms.startTime }
            let db := addEvent db c.id "MANAGER_ACCEPTED" (some ms.id)
            -- committed at line 426; line 429 then raises
            -- ModuleNotFoundError, caught by the per-message handler
            some (db,
              (if unreadOnly && e.id ≠ "" then [Eff.markRead e.id] else []),
              PMOut.errored)
          | none => none
        else none
      match confirmBranch with
      | some r => r
      | none =>
        if intent = "MEETING_SCHEDULED" then
          let slotsMeta := collect_stated_slots meta
          let r := create_manager_slots fromiso db c.id slotsMeta
          let db := r.1
          let db := upsertStatus db { st0 with
            currentStatus := some "Awaiting Candidate Confirmation" }
          if r.2 > 0 then
            -- _email_applicant_request_times: email, outbound Message,
            -- REQUEST_TIME_CONFIRMATION event, status cache update
            let db := addMsg db
              ⟨"out:" ++ e.id, "outbound", some "REQUEST_TIME_CONFIRMATION"⟩
            let db := addEvent db c.id "REQUEST_TIME_CONFIRMATION" none
            let db := upsertStatus db { st0 with
              currentStatus := some "Awaiting Candidate Confirmation" }
            let effs :=
              [Eff.emailSent c.email
                ("Please confirm your interview time – " ++ pyOr c.position "Role")] ++
              (if unreadOnly then [Eff.markRead e.id] else [])
            (db, effs, PMOut.processed)
          else
            (db, (if unreadOnly then [Eff.markRead e.id] else []),
              PMOut.processed)
        else if intent = "SALARY_DISCUSSION" && salary_truthy meta then
          let db := upsertStatus db { st0 with
            currentStatus := some "Salary Discussed" }
          (db, (if unreadOnly then [Eff.markRead e.id] else []),
            PMOut.processed)
        else if intent = "REJECTION" then
          let db := upsertStatus db { st0 with
            currentStatus := some "Rejected by Manager" }
          (db, (if unreadOnly then [Eff.markRead e.id] else []),
            PMOut.processed)
        else if intent = "PROCEED" then
          let db := upsertStatus db { st0 with
            currentStatus := some "Manager Approved" }
          if !(meeting_iso_truthy meta || proposed_slots_truthy meta) then
            -- availability follow-up (send failure swallowed; outbound
            -- Message logged either way)
            let db := addMsg db
              ⟨"out:" ++ e.id, "outbound", some "ASKED_FOR_AVAILABILITY"⟩
            let db := addEvent db c.id "ASKED_FOR_AVAILABILITY" none
            let db := upsertStatus db { st0 with
              currentStatus := some "Awaiting Manager Availability" }
            let effs :=
              [Eff.emailSent mgr.email
                ("Re: " ++ pyOr e.subject "Interview Scheduling")] ++
              (if unreadOnly then [Eff.markRead e.id] else [])
            (db, effs, PMOut.processed)
          else
            (db, (if unreadOnly then [Eff.markRead e.id] else []),
              PMOut.processed)
        else
          (db, (if unreadOnly then [Eff.markRead e.id] else []),
            PMOut.processed)

/-! ## Run level: the polling loops -/

/-- The `{processed, skipped, errors}` counters of one run. -/
structure Counts where
  processed : Nat
  skipped : Nat
  errors : Nat
deriving Repr, DecidableEq

/-- Combine counters. -/
def Counts.add (a b : Counts) : Counts :=
  ⟨a.processed + b.processed, a.skipped + b.skipped, a.errors + b.errors⟩

/-- The counter contribution of one message outcome. -/
def countOut : PMOut → Counts
  | PMOut.processed => ⟨1, 0, 0⟩
  | PMOut.skippedMsg => ⟨0, 1, 0⟩
  | PMOut.errored => ⟨0, 0, 1⟩

/-- One fetched message together with the outcome of the external calls
made while processing it: the `parse_intent_llm` result for its body and
the calendar-service reply (consulted only on an acceptance path). -/
structure InboundPkg where
  email : Email
  intent : String
  meta : MetaR
  cal : CalRes
deriving Repr, DecidableEq

/-- The inner `for e in emails:` loop of `ingest_manager_replies`
(candidate resolution re-runs per message but reads the same stored
rows, so it yields the same heuristic result `cand` for the batch). -/
def ingest_manager_batch (fromiso : String → Option PyDT)
    (cand : Option Cand) (mgr : Mgr) (unreadOnly : Bool) :
    DB → List InboundPkg → DB × List Eff × Counts
  | db, [] => (db, [], ⟨0, 0, 0⟩)
  | db, p :: rest =>
    let r1 := ingest_manager_msg fromiso db cand mgr p.email p.intent p.meta
      p.cal unreadOnly
    let r2 := ingest_manager_batch fromiso cand mgr unreadOnly r1.1 rest
    (r2.1, r1.2.1 ++ r2.2.1, (countOut r1.2.2).add r2.2.2)

/-- One manager's turn in the outer loop: a failed
`get_emails_from_sender` call (`fetch = none`) is logged, counted as one
error and aborts only this manager's batch — nothing is marked read. -/
def ingest_manager_party (fromiso : String → Option PyDT)
    (cand : Option Cand) (mgr : Mgr) (unreadOnly : Bool) (db : DB)
    (fetch : Option (List InboundPkg)) : DB × List Eff × Counts :=
  match fetch with
  | none => (db, [], ⟨0, 0, 1⟩)
  | some msgs => ingest_manager_batch fromiso cand mgr unreadOnly db msgs

/-- A manager together with its run inputs: the resolved candidate and
the transport fetch result. -/
structure MgrParty where
  mgr : Mgr
  cand : Option Cand
  fetch : Option (List InboundPkg)
deriving Repr, DecidableEq

/-- `ingest_manager_replies`: iterate the managers (one without an email
address is passed over silently), accumulating state, effects and
counters. -/
def ingest_manager_replies_run (fromiso : String → Option PyDT)
    (unreadOnly : Bool) : DB → List MgrParty → DB × List Eff × Counts
  | db, [] => (db, [], ⟨0, 0, 0⟩)
  | db, p :: rest =>
    if p.mgr.email = "" then
      ingest_manager_replies_run fromiso unreadOnly db rest
    else
      let r1 := ingest_manager_party fromiso p.cand p.mgr unreadOnly db p.fetch
      let r2 := ingest_manager_replies_run fromiso unreadOnly r1.1 rest
      (r2.1, r1.2.1 ++ r2.2.1, r1.2.2.add r2.2.2)

/-- The inner `for e in emails:` loop of `ingest_candidate_replies`.
`openMgrSlots` is loaded once before the loop (line 221) and not
refreshed between messages. -/
def ingest_candidate_batch (fromiso : String → Option PyDT) (c : Cand)
    (mgr : Mgr) (openMgrSlots : List Slot) (unreadOnly : Bool) :
    DB → List InboundPkg → DB × List Eff × Counts
  | db, [] => (db, [], ⟨0, 0, 0⟩)
  | db, p :: rest =>
    let r1 := ingest_candidate_msg fromiso db c mgr openMgrSlots p.email
      p.intent p.meta p.cal unreadOnly
    let r2 := ingest_candidate_batch fromiso c mgr openMgrSlots unreadOnly
      r1.1 rest
    (r2.1, r1.2.1 ++ r2.2.1, (countOut r1.2.2).add r2.2.2)

/-- A candidate together with its run inputs: the resolved manager
(`none` → the whole batch is skipped, nothing marked read) and the
transport fetch result. -/
structure CandParty where
  cand : Cand
  mgrOpt : Option Mgr
  fetch : Option (List InboundPkg)
deriving Repr, DecidableEq

/-- One candidate's turn in the outer loop: fetch failure → one error,
batch aborted, nothing marked read; unresolvable manager → all fetched
messages counted skipped, nothing processed or marked read; otherwise
the open manager slots are loaded and the batch runs. -/
def ingest_candidate_party (fromiso : String → Option PyDT)
    (unreadOnly : Bool) (db : DB) (p : CandParty) : DB × List Eff × Counts :=
  match p.fetch with
  | none => (db, [], ⟨0, 0, 1⟩)
  | some msgs =>
    match p.mgrOpt with
    | none => (db, [], ⟨0, msgs.length, 0⟩)
    | some mgr =>
      let openSlots := latest_open_manager_slots db p.cand.id 10
      ingest_candidate_batch fromiso p.cand mgr openSlots unreadOnly db msgs

/-- `ingest_candidate_replies`: iterate the candidates (one without an
email address is passed over silently). -/
def ingest_candidate_replies_run (fromiso : String → Option PyDT)
    (unreadOnly : Bool) : DB → List CandParty → DB × List Eff × Counts
  | db, [] => (db, [], ⟨0, 0, 0⟩)
  | db, p :: rest =>
    if p.cand.email = "" then
      ingest_candidate_replies_run fromiso unreadOnly db rest
    else
      let r1 := ingest_candidate_party fromiso unreadOnly db p
      let r2 := ingest_candidate_replies_run fromiso unreadOnly r1.1 rest
      (r2.1, r1.2.1 ++ r2.2.1, r1.2.2.add r2.2.2)

/-- The slots of a candidate currently in `accepted` status. -/
def accepted_slots (db : DB) (cid : Nat) : List Slot :=
  db.slots.filter (fun s =>
    decide (s.candidateId = cid) && decide (s.status = "accepted"))

/-! ## Frame lemmas for the state helpers -/

/-- `upsertStatus` only touches the status table. -/
theorem upsertStatus_msgs (db : DB) (s : CandStatusRec) :
    (upsertStatus db s).msgs = db.msgs := by
  unfold upsertStatus; split <;> rfl

/-- `upsertStatus` leaves the slot table unchanged. -/
theorem upsertStatus_slots (db : DB) (s : CandStatusRec) :
    (upsertStatus db s).slots = db.slots := by
  unfold upsertStatus; split <;> rfl

/-- `upsertStatus` leaves the event table unchanged. -/
theorem upsertStatus_events (db : DB) (s : CandStatusRec) :
    (upsertStatus db s).events = db.events := by
  unfold upsertStatus; split <;> rfl

/-- `create_applicant_slots` only touches the slot table: messages are
unchanged. -/
theorem create_applicant_slots_msgs (fromiso : String → Option PyDT)
    (cid : Nat) : ∀ (ps : List SlotPair) (db : DB),
    (create_applicant_slots fromiso db cid ps).1.msgs = db.msgs := by
  intro ps
  induction ps with
  | nil => intro db; rfl
  | cons p rest ih =>
    intro db
    unfold create_applicant_slots
    cases hp : parse_iso_instant fromiso p.pstart with
    | none => exact ih db
    | some st => simpa using ih (addSlot db cid "applicant" st (parse_pend fromiso p))

/-- `create_manager_slots` only touches the slot table: messages are
unchanged. -/
theorem create_manager_slots_msgs (fromiso : String → Option PyDT)
    (cid : Nat) : ∀ (ps : List SlotPair) (db : DB),
    (create_manager_slots fromiso db cid ps).1.msgs = db.msgs := by
  intro ps
  induction ps with
  | nil => intro db; rfl
  | cons p rest ih =>
    intro db
    unfold create_manager_slots
    cases hp : parse_iso_instant fromiso p.pstart with
    | none => exact ih db
    | some st =>
      cases he : parse_pend fromiso p with
      | none => simpa using ih (addSlot db cid "manager" st none)
      | some en =>
        by_cases hle : en ≤ st
        · simp only [hle, if_true]
          exact ih db
        · simp only [hle, if_false]
          simpa using ih (addSlot db cid "manager" st (some en))

/-- `addMsg` prepends the new message row. -/
theorem addMsg_msgs (db : DB) (m : MsgRec) : (addMsg db m).msgs = m :: db.msgs :=
  rfl

/-- `addEvent` leaves messages unchanged. -/
theorem addEvent_msgs (db : DB) (cid : Nat) (ty : String) (sid : Option Nat) :
    (addEvent db cid ty sid).msgs = db.msgs := rfl

/-- `updateSlot` leaves messages unchanged. -/
theorem updateSlot_msgs (db : DB) (sid : Nat) (f : Slot → Slot) :
    (updateSlot db sid f).msgs = db.msgs := rfl

/-- After a fresh candidate message is processed, its transport id is in
the message table (every branch begins with the `Message` insert). -/
theorem ingest_candidate_msg_has_id (fromiso : String → Option PyDT)
    (db : DB) (c : Cand) (mgr : Mgr) (openMgrSlots : List Slot) (e : Email)
    (intent : String) (meta : MetaR) (cal : CalRes) (u : Bool) :
    (ingest_candidate_msg fromiso db c mgr openMgrSlots e intent meta cal
        u).1.msgs.any (fun m => decide (m.gmailId = e.id)) = true := by
  unfold ingest_candidate_msg
  cases hdup : db.msgs.any (fun m => decide (m.gmailId = e.id)) with
  | true => simp [hdup]
  | false =>
    simp only [hdup, Bool.false_eq_true, if_false]
    cases hfm : first_matching_stated_time fromiso openMgrSlots
        (collect_stated_slots meta) with
    | some pr =>
      simp [hfm, addEvent_msgs, upsertStatus_msgs, updateSlot_msgs, addMsg_msgs]
    | none =>
      simp only [hfm]
      by_cases hcr : (create_applicant_slots fromiso
          (upsertStatus (addMsg db ⟨e.id, "inbound", some intent⟩)
            (statusOrNew (addMsg db ⟨e.id, "inbound", some intent⟩) c.id)) c.id
          (collect_stated_slots meta)).2 > 0
      · simp [hcr, addEvent_msgs, upsertStatus_msgs, create_applicant_slots_msgs,
          addMsg_msgs]
      · simp [hcr, addEvent_msgs, upsertStatus_msgs, create_applicant_slots_msgs,
          addMsg_msgs]

/-- After a fresh manager message is processed (with a resolved
candidate), its transport id is in the message table. -/
theorem ingest_manager_msg_has_id (fromiso : String → Option PyDT)
    (db : DB) (c : Cand) (mgr : Mgr) (e : Email) (intent : String)
    (meta : MetaR) (cal : CalRes) (u : Bool) :
    (ingest_manager_msg fromiso db (some c) mgr e intent meta cal
        u).1.msgs.any (fun m => decide (m.gmailId = e.id)) = true := by
  unfold ingest_manager_msg
  cases hdup : db.msgs.any (fun m => decide (m.gmailId = e.id)) with
  | true => simp [hdup]
  | false =>
    simp only [hdup, Bool.false_eq_true, if_false]
    repeat' split
    all_goals
      try simp [addEvent_msgs, upsertStatus_msgs, updateSlot_msgs, addMsg_msgs,
        create_manager_slots_msgs]
    all_goals
      rename_i cb r heq
    all_goals
      split at heq
    all_goals
      try exact Option.noConfusion heq
    all_goals
      split at heq
    all_goals
      try exact Option.noConfusion heq
    all_goals
      injection heq with h
    all_goals
      subst h
    all_goals
      simp [addEvent_msgs, upsertStatus_msgs, updateSlot_msgs, addMsg_msgs]

/-- C4: re-processing an inbound message whose `gmail_message_id` is
already in the `messages` table aborts before any slot or email side
effect: the unique-key violation at `session.flush()` is caught by the
per-message handler, leaving the database unchanged (no new
`InterviewSlot` row) and emitting no email — only the mark-read attempt.
A first pass always records the id, so a second pass of the same
transport message takes exactly that abort path. -/
theorem gmail_id_dedup_skips_reprocessing :
    (∀ (fromiso : String → Option PyDT) (db : DB) (c : Cand) (mgr : Mgr)
        (openMgrSlots : List Slot) (e : Email) (intent : String) (meta : MetaR)
        (cal : CalRes) (u : Bool),
      db.msgs.any (fun m => decide (m.gmailId = e.id)) = true →
      ingest_candidate_msg fromiso db c mgr openMgrSlots e intent meta cal u =
        (db, (if u && e.id ≠ "" then [Eff.markRead e.id] else []),
          PMOut.errored)) ∧
    (∀ (fromiso : String → Option PyDT) (db : DB) (c : Cand) (mgr : Mgr)
        (e : Email) (intent : String) (meta : MetaR) (cal : CalRes) (u : Bool),
      db.msgs.any (fun m => decide (m.gmailId = e.id)) = true →
      ingest_manager_msg fromiso db (some c) mgr e intent meta cal u =
        (db, (if u && e.id ≠ "" then [Eff.markRead e.id] else []),
          PMOut.errored)) ∧
    (∀ (fromiso : String → Option PyDT) (db : DB) (c : Cand) (mgr : Mgr)
        (openMgrSlots : List Slot) (e : Email) (intent : String) (meta : MetaR)
        (cal : CalRes) (u : Bool),
      (ingest_candidate_msg fromiso db c mgr openMgrSlots e intent meta cal
          u).1.msgs.any (fun m => decide (m.gmailId = e.id)) = true) ∧
    (∀ (fromiso : String → Option PyDT) (db : DB) (c : Cand) (mgr : Mgr)
        (openMgrSlots : List Slot) (e : Email) (intent intent' : String)
        (meta meta' : MetaR) (cal cal' : CalRes) (u : Bool),
      ingest_candidate_msg fromiso
          (ingest_candidate_msg fromiso db c mgr openMgrSlots e intent meta cal
            u).1 c mgr openMgrSlots e intent' meta' cal' u =
        ((ingest_candidate_msg fromiso db c mgr openMgrSlots e intent meta cal
            u).1,
          (if u && e.id ≠ "" then [Eff.markRead e.id] else []),
          PMOut.errored)) := by
  have h1 : ∀ (fromiso : String → Option PyDT) (db : DB) (c : Cand) (mgr : Mgr)
      (openMgrSlots : List Slot) (e : Email) (intent : String) (meta : MetaR)
      (cal : CalRes) (u : Bool),
      db.msgs.any (fun m => decide (m.gmailId = e.id)) = true →
      ingest_candidate_msg fromiso db c mgr openMgrSlots e intent meta cal u =
        (db, (if u && e.id ≠ "" then [Eff.markRead e.id] else []),
          PMOut.errored) := by
    intro fromiso db c mgr openMgrSlots e intent meta cal u h
    unfold ingest_candidate_msg
    simp [h]
  refine ⟨h1, ?_, ingest_candidate_msg_has_id, ?_⟩
  · intro fromiso db c mgr e intent meta cal u h
    unfold ingest_manager_msg
    simp [h]
  · intro fromiso db c mgr openMgrSlots e intent intent' meta meta' cal cal' u
    exact h1 fromiso _ c mgr openMgrSlots e intent' meta' cal' u
      (ingest_candidate_msg_has_id fromiso db c mgr openMgrSlots e intent meta
        cal u)

/-- Witness for C4: with a `messages` table already holding gmail id
`"g1"`, re-ingesting a message with that id leaves the state unchanged,
sends nothing, and only attempts the mark-read. -/
theorem gmail_id_dedup_skips_reprocessing_witness :
    ingest_candidate_msg (fun _ => none)
        ⟨[], [⟨"g1", "inbound", none⟩], [], [], 0⟩
        ⟨1, "C", "c@x", "Dev"⟩ ⟨"m", "M", "m@x"⟩ []
        ⟨"g1", "t", "c@x", "s", "b"⟩ "OTHER" ⟨none, none, none, none, none⟩
        ⟨true, none, none⟩ true =
      (⟨[], [⟨"g1", "inbound", none⟩], [], [], 0⟩, [Eff.markRead "g1"],
        PMOut.errored) := by
  have h := gmail_id_dedup_skips_reprocessing.1 (fun _ => none)
    ⟨[], [⟨"g1", "inbound", none⟩], [], [], 0⟩
    ⟨1, "C", "c@x", "Dev"⟩ ⟨"m", "M", "m@x"⟩ []
    ⟨"g1", "t", "c@x", "s", "b"⟩ "OTHER" ⟨none, none, none, none, none⟩
    ⟨true, none, none⟩ true (by decide)
  simpa using h

/-! ## Theorems: C9 (mark-read discipline) -/

/-- In unread-only mode every manager message that reaches the loop body
gets a mark-read attempt, whatever branch (skip, error, or any intent
path) it takes. -/
theorem ingest_manager_msg_marks_read (fromiso : String → Option PyDT)
    (db : DB) (cand : Option Cand) (mgr : Mgr) (e : Email) (intent : String)
    (meta : MetaR) (cal : CalRes) (hid : e.id ≠ "") :
    Eff.markRead e.id ∈
      (ingest_manager_msg fromiso db cand mgr e intent meta cal true).2.1 := by
  unfold ingest_manager_msg
  cases cand with
  | none => simp
  | some c =>
    cases hdup : db.msgs.any (fun m => decide (m.gmailId = e.id)) with
    | true => simp [hdup, hid]
    | false =>
      simp only [hdup, Bool.false_eq_true, if_false]
      repeat' split
      all_goals try simp [hid]
      all_goals try (exact absurd trivial (by assumption))
      all_goals rename_i cb r heq
      all_goals split at heq
      all_goals try exact Option.noConfusion heq
      all_goals split at heq
      all_goals try exact Option.noConfusion heq
      all_goals injection heq with h
      all_goals subst h
      all_goals simp [hid]

/-- In unread-only mode every candidate message that reaches the loop
body gets a mark-read attempt, whatever branch it takes. -/
theorem ingest_candidate_msg_marks_read (fromiso : String → Option PyDT)
    (db : DB) (c : Cand) (mgr : Mgr) (openMgrSlots : List Slot) (e : Email)
    (intent : String) (meta : MetaR) (cal : CalRes) (hid : e.id ≠ "") :
    Eff.markRead e.id ∈
      (ingest_candidate_msg fromiso db c mgr openMgrSlots e intent meta cal
        true).2.1 := by
  unfold ingest_candidate_msg
  cases hdup : db.msgs.any (fun m => decide (m.gmailId = e.id)) with
  | true => simp [hdup, hid]
  | false =>
    simp only [hdup, Bool.false_eq_true, if_false]
    repeat' split
    all_goals try simp
    all_goals exact absurd trivial (by assumption)

/-- C9: in unread-only mode, both loops attempt the mark-read for every
message whose per-message processing runs — on normal completion and on
a swallowed per-message exception alike; a transport fetch failure for
one party marks nothing read, contributes exactly one error, leaves the
state untouched and lets the run continue with the remaining parties. -/
theorem mark_read_discipline :
    (∀ (fromiso : String → Option PyDT) (db : DB) (cand : Option Cand)
        (mgr : Mgr) (e : Email) (intent : String) (meta : MetaR) (cal : CalRes),
      e.id ≠ "" →
      Eff.markRead e.id ∈
        (ingest_manager_msg fromiso db cand mgr e intent meta cal true).2.1) ∧
    (∀ (fromiso : String → Option PyDT) (db : DB) (c : Cand) (mgr : Mgr)
        (openMgrSlots : List Slot) (e : Email) (intent : String) (meta : MetaR)
        (cal : CalRes),
      e.id ≠ "" →
      Eff.markRead e.id ∈
        (ingest_candidate_msg fromiso db c mgr openMgrSlots e intent meta cal
          true).2.1) ∧
    (∀ (fromiso : String → Option PyDT) (cand : Option Cand) (mgr : Mgr)
        (u : Bool) (db : DB),
      ingest_manager_party fromiso cand mgr u db none = (db, [], ⟨0, 0, 1⟩)) ∧
    (∀ (fromiso : String → Option PyDT) (u : Bool) (db : DB) (c : Cand)
        (m : Option Mgr),
      ingest_candidate_party fromiso u db ⟨c, m, none⟩ = (db, [], ⟨0, 0, 1⟩)) ∧
    (∀ (fromiso : String → Option PyDT) (u : Bool) (db : DB) (mgr : Mgr)
        (cand : Option Cand) (rest : List MgrParty),
      mgr.email ≠ "" →
      ingest_manager_replies_run fromiso u db (⟨mgr, cand, none⟩ :: rest) =
        ((ingest_manager_replies_run fromiso u db rest).1,
         (ingest_manager_replies_run fromiso u db rest).2.1,
         ⟨(ingest_manager_replies_run fromiso u db rest).2.2.processed,
          (ingest_manager_replies_run fromiso u db rest).2.2.skipped,
          1 + (ingest_manager_replies_run fromiso u db rest).2.2.errors⟩)) ∧
    (∀ (fromiso : String → Option PyDT) (u : Bool) (db : DB) (c : Cand)
        (m : Option Mgr) (rest : List CandParty),
      c.email ≠ "" →
      ingest_candidate_replies_run fromiso u db (⟨c, m, none⟩ :: rest) =
        ((ingest_candidate_replies_run fromiso u db rest).1,
         (ingest_candidate_replies_run fromiso u db rest).2.1,
         ⟨(ingest_candidate_replies_run fromiso u db rest).2.2.processed,
          (ingest_candidate_replies_run fromiso u db rest).2.2.skipped,
          1 + (ingest_candidate_replies_run fromiso u db rest).2.2.errors⟩)) := by
  refine ⟨ingest_manager_msg_marks_read, ingest_candidate_msg_marks_read,
    fun _ _ _ _ _ => rfl, fun _ _ _ _ _ => rfl, ?_, ?_⟩
  · intro fromiso u db mgr cand rest hm
    show (if mgr.email = "" then _ else _) = _
    rw [if_neg hm]
    show ((ingest_manager_replies_run fromiso u db rest).1,
      [] ++ (ingest_manager_replies_run fromiso u db rest).2.1,
      Counts.add ⟨0, 0, 1⟩ (ingest_manager_replies_run fromiso u db rest).2.2) = _
    simp [Counts.add]
  · intro fromiso u db c m rest hc
    show (if c.email = "" then _ else _) = _
    rw [if_neg hc]
    show ((ingest_candidate_replies_run fromiso u db rest).1,
      [] ++ (ingest_candidate_replies_run fromiso u db rest).2.1,
      Counts.add ⟨0, 0, 1⟩ (ingest_candidate_replies_run fromiso u db rest).2.2) = _
    simp [Counts.add]

/-- Witness for C9: a concrete message id gets its mark-read attempt in
both loops, and a concrete failed fetch yields one error with nothing
marked read. -/
theorem mark_read_discipline_witness :
    Eff.markRead "g7" ∈
      (ingest_manager_msg (fun _ => none) ⟨[], [], [], [], 0⟩ none
        ⟨"m", "M", "m@x"⟩ ⟨"g7", "t", "m@x", "s", "b"⟩ "OTHER"
        ⟨none, none, none, none, none⟩ ⟨true, none, none⟩ true).2.1 ∧
    Eff.markRead "g7" ∈
      (ingest_candidate_msg (fun _ => none) ⟨[], [], [], [], 0⟩
        ⟨1, "C", "c@x", "Dev"⟩ ⟨"m", "M", "m@x"⟩ []
        ⟨"g7", "t", "c@x", "s", "b"⟩ "OTHER" ⟨none, none, none, none, none⟩
        ⟨true, none, none⟩ true).2.1 ∧
    ingest_manager_replies_run (fun _ => none) true ⟨[], [], [], [], 0⟩
        [⟨⟨"m", "M", "m@x"⟩, none, none⟩] =
      (⟨[], [], [], [], 0⟩, [], ⟨0, 0, 1⟩) ∧
    ingest_candidate_replies_run (fun _ => none) true ⟨[], [], [], [], 0⟩
        [⟨⟨1, "C", "c@x", "Dev"⟩, none, none⟩] =
      (⟨[], [], [], [], 0⟩, [], ⟨0, 0, 1⟩) := by
  refine ⟨?_, ?_, ?_, ?_⟩
  · exact mark_read_discipline.1 (fun _ => none) ⟨[], [], [], [], 0⟩ none
      ⟨"m", "M", "m@x"⟩ ⟨"g7", "t", "m@x", "s", "b"⟩ "OTHER"
      ⟨none, none, none, none, none⟩ ⟨true, none, none⟩ (by decide)
  · exact mark_read_discipline.2.1 (fun _ => none) ⟨[], [], [], [], 0⟩
      ⟨1, "C", "c@x", "Dev"⟩ ⟨"m", "M", "m@x"⟩ []
      ⟨"g7", "t", "c@x", "s", "b"⟩ "OTHER" ⟨none, none, none, none, none⟩
      ⟨true, none, none⟩ (by decide)
  · have h := mark_read_discipline.2.2.2.2.1 (fun _ => none) true
      ⟨[], [], [], [], 0⟩ ⟨"m", "M", "m@x"⟩ none [] (by decide)
    simpa using h
  · have h := mark_read_discipline.2.2.2.2.2 (fun _ => none) true
      ⟨[], [], [], [], 0⟩ ⟨1, "C", "c@x", "Dev"⟩ none [] (by decide)
    simpa using h

/-! ## Theorems: C3 (accepted-slot uniqueness) -/

/-- Overwriting the (unique-id) row `sid` can raise the number of rows
satisfying a predicate by at most one. -/
theorem filter_length_update_le (p : Slot → Bool) (sid : Nat) (acc : Slot) :
    ∀ l : List Slot, (l.map Slot.id).Nodup →
      ((l.map (fun s => if s.id = sid then acc else s)).filter p).length ≤
        (l.filter p).length + 1 := by
  intro l
  induction l with
  | nil => intro _; simp
  | cons s rest ih =>
    intro hnd
    rw [List.map_cons, List.nodup_cons] at hnd
    obtain ⟨hni, hnd⟩ := hnd
    have hih := ih hnd
    by_cases hs : s.id = sid
    · have hrest : rest.map (fun t => if t.id = sid then acc else t) = rest := by
        have h2 : rest.map (fun t => if t.id = sid then acc else t) =
            rest.map id := by
          apply List.map_congr_left
          intro t ht
          have ht' : ¬ t.id = sid := by
            intro hts
            apply hni
            rw [hs]
            exact List.mem_map.mpr ⟨t, ht, hts⟩
          simp [ht']
        simpa using h2
      simp only [List.map_cons, hs, if_true, hrest]
      cases hpacc : p acc <;> cases hps : p s <;>
        simp [List.filter_cons, hpacc, hps] <;> omega
    · simp only [List.map_cons, hs, if_false]
      cases hps : p s
      · simp [List.filter_cons, hps]
        omega
      · simp [List.filter_cons, hps]
        omega

/-- `addSlot` inserts a `proposed` row, so the accepted set is
unchanged. -/
theorem accepted_slots_addSlot (db : DB) (cid' : Nat) (by_ : String)
    (st : Int) (en : Option Int) (cid : Nat) :
    accepted_slots (addSlot db cid' by_ st en) cid = accepted_slots db cid := by
  simp [accepted_slots, addSlot, List.filter_cons]

/-- `create_applicant_slots` only adds `proposed` rows. -/
theorem accepted_slots_create_applicant (fromiso : String → Option PyDT)
    (cid' cid : Nat) : ∀ (ps : List SlotPair) (db : DB),
    accepted_slots (create_applicant_slots fromiso db cid' ps).1 cid =
      accepted_slots db cid := by
  intro ps
  induction ps with
  | nil => intro db; rfl
  | cons p rest ih =>
    intro db
    unfold create_applicant_slots
    cases hp : parse_iso_instant fromiso p.pstart with
    | none => exact ih db
    | some st =>
      simpa [accepted_slots_addSlot] using
        ih (addSlot db cid' "applicant" st (parse_pend fromiso p))

/-- `create_manager_slots` only adds `proposed` rows. -/
theorem accepted_slots_create_manager (fromiso : String → Option PyDT)
    (cid' cid : Nat) : ∀ (ps : List SlotPair) (db : DB),
    accepted_slots (create_manager_slots fromiso db cid' ps).1 cid =
      accepted_slots db cid := by
  intro ps
  induction ps with
  | nil => intro db; rfl
  | cons p rest ih =>
    intro db
    unfold create_manager_slots
    cases hp : parse_iso_instant fromiso p.pstart with
    | none => exact ih db
    | some st =>
      cases he : parse_pend fromiso p with
      | none =>
        simpa [accepted_slots_addSlot] using
          ih (addSlot db cid' "manager" st none)
      | some en =>
        by_cases hle : en ≤ st
        · simp only [hle, if_true]
          exact ih db
        · simp only [hle, if_false]
          simpa [accepted_slots_addSlot] using
            ih (addSlot db cid' "manager" st (some en))

/-- The accepted set only depends on the slot table. -/
theorem accepted_slots_congr (db db' : DB) (cid : Nat)
    (h : db.slots = db'.slots) :
    accepted_slots db cid = accepted_slots db' cid := by
  simp [accepted_slots, h]

/-- `addMsg` leaves the slot table unchanged. -/
theorem addMsg_slots (db : DB) (m : MsgRec) : (addMsg db m).slots = db.slots :=
  rfl

/-- `addEvent` leaves the slot table unchanged. -/
theorem addEvent_slots (db : DB) (cid : Nat) (ty : String) (sid : Option Nat) :
    (addEvent db cid ty sid).slots = db.slots := rfl

/-- Message inserts do not change the accepted set. -/
theorem accepted_slots_addMsg (db : DB) (m : MsgRec) (cid : Nat) :
    accepted_slots (addMsg db m) cid = accepted_slots db cid := rfl

/-- Event inserts do not change the accepted set. -/
theorem accepted_slots_addEvent (db : DB) (cid' : Nat) (ty : String)
    (sid : Option Nat) (cid : Nat) :
    accepted_slots (addEvent db cid' ty sid) cid = accepted_slots db cid := rfl

/-- Status upserts do not change the accepted set. -/
theorem accepted_slots_upsertStatus (db : DB) (s : CandStatusRec) (cid : Nat) :
    accepted_slots (upsertStatus db s) cid = accepted_slots db cid :=
  accepted_slots_congr _ _ _ (upsertStatus_slots db s)

/-- C3 (amended): neither acceptance transition consults the existing
accepted slots — but a single processed message marks at most one slot
accepted: with unique slot ids, each per-message step grows a
candidate's accepted set by at most one row (the claim's stronger
"never a second accepted slot" guarantee fails, see
`two_accepted_slots_reachable`). -/
theorem at_most_one_acceptance_per_message :
    (∀ (fromiso : String → Option PyDT) (db : DB) (c : Cand) (mgr : Mgr)
        (openMgrSlots : List Slot) (e : Email) (intent : String) (meta : MetaR)
        (cal : CalRes) (u : Bool) (cid : Nat),
      (db.slots.map Slot.id).Nodup →
      (accepted_slots
          (ingest_candidate_msg fromiso db c mgr openMgrSlots e intent meta cal
            u).1 cid).length ≤ (accepted_slots db cid).length + 1) ∧
    (∀ (fromiso : String → Option PyDT) (db : DB) (cand : Option Cand)
        (mgr : Mgr) (e : Email) (intent : String) (meta : MetaR) (cal : CalRes)
        (u : Bool) (cid : Nat),
      (db.slots.map Slot.id).Nodup →
      (accepted_slots
          (ingest_manager_msg fromiso db cand mgr e intent meta cal u).1
          cid).length ≤ (accepted_slots db cid).length + 1) := by
  constructor
  · intro fromiso db c mgr openMgrSlots e intent meta cal u cid hnd
    unfold ingest_candidate_msg
    cases hdup : db.msgs.any (fun m => decide (m.gmailId = e.id)) with
    | true => simp [hdup]
    | false =>
      simp only [hdup, Bool.false_eq_true, if_false]
      repeat' split
      all_goals simp only [accepted_slots_addMsg, accepted_slots_addEvent,
        accepted_slots_upsertStatus, accepted_slots_create_applicant]
      all_goals try omega
      all_goals
        simp only [accepted_slots_addMsg, accepted_slots_addEvent,
          accepted_slots_upsertStatus, accepted_slots, updateSlot,
          upsertStatus_slots, addEvent_slots, addMsg_slots]
      all_goals exact filter_length_update_le _ _ _ db.slots hnd
  · intro fromiso db cand mgr e intent meta cal u cid hnd
    unfold ingest_manager_msg
    cases cand with
    | none => simp
    | some c =>
      cases hdup : db.msgs.any (fun m => decide (m.gmailId = e.id)) with
      | true => simp [hdup]
      | false =>
        simp only [hdup, Bool.false_eq_true, if_false]
        repeat' split
        all_goals try simp only [accepted_slots_addMsg, accepted_slots_addEvent,
          accepted_slots_upsertStatus, accepted_slots_create_manager]
        all_goals try omega
        all_goals rename_i cb r heq
        all_goals split at heq
        all_goals try exact Option.noConfusion heq
        all_goals split at heq
        all_goals try exact Option.noConfusion heq
        all_goals injection heq with h
        all_goals subst h
        all_goals
          simp only [accepted_slots_addMsg, accepted_slots_addEvent,
            accepted_slots_upsertStatus, accepted_slots, updateSlot,
            upsertStatus_slots, addEvent_slots, addMsg_slots]
        all_goals exact filter_length_update_le _ _ _ db.slots hnd

/-- Witness for C3's amended theorem at a concrete state: one proposed
slot, one message accepting it, accepted count goes from 0 to at most
1. -/
theorem at_most_one_acceptance_per_message_witness :
    (accepted_slots
        (ingest_candidate_msg
          (fun s => if s = "A" then some ⟨1000, none⟩ else none)
          ⟨[⟨0, 1, "manager", 1000, none, "proposed"⟩], [], [], [], 1⟩
          ⟨1, "C", "c@x", "Dev"⟩ ⟨"m", "M", "m@x"⟩
          [⟨0, 1, "manager", 1000, none, "proposed"⟩]
          ⟨"g1", "t", "c@x", "s", "b"⟩ "MEETING_SCHEDULED"
          ⟨some "A", none, none, none, none⟩ ⟨true, none, none⟩ true).1
        1).length ≤
      (accepted_slots
        ⟨[⟨0, 1, "manager", 1000, none, "proposed"⟩], [], [], [], 1⟩ 1).length
        + 1 :=
  at_most_one_acceptance_per_message.1
    (fun s => if s = "A" then some ⟨1000, none⟩ else none)
    ⟨[⟨0, 1, "manager", 1000, none, "proposed"⟩], [], [], [], 1⟩
    ⟨1, "C", "c@x", "Dev"⟩ ⟨"m", "M", "m@x"⟩
    [⟨0, 1, "manager", 1000, none, "proposed"⟩]
    ⟨"g1", "t", "c@x", "s", "b"⟩ "MEETING_SCHEDULED"
    ⟨some "A", none, none, none, none⟩ ⟨true, none, none⟩ true 1 (by decide)

/-- Concrete datetime oracle for the counterexample run: `"A"` parses to
instant 1000, `"B"` to instant 100000 (more than five minutes apart). -/
def cexFromiso : String → Option PyDT := fun s =>
  if s = "A" then some ⟨1000, none⟩
  else if s = "B" then some ⟨100000, none⟩
  else none

/-- Counterexample run, manager phase: two manager replies, each
proposing one time (`A`, then `B`) — two open manager slots result. -/
def cexAfterManager : DB :=
  (ingest_manager_replies_run cexFromiso true ⟨[], [], [], [], 0⟩
    [⟨⟨"m1", "M", "m@x"⟩, some ⟨1, "C", "c@x", "Dev"⟩,
      some
        [⟨⟨"g1", "t1", "m@x", "s", "hello"⟩, "MEETING_SCHEDULED",
          ⟨some "A", none, none, none, none⟩, ⟨true, none, none⟩⟩,
         ⟨⟨"g2", "t1", "m@x", "s", "hello"⟩, "MEETING_SCHEDULED",
          ⟨some "B", none, none, none, none⟩, ⟨true, none, none⟩⟩]⟩]).1

/-- Counterexample run, candidate phase: two candidate replies, the
first restating `A`, the second restating `B`; each matches a different
still-open manager slot and is accepted without any check for an
already-accepted slot. -/
def cexFinal : DB :=
  (ingest_candidate_replies_run cexFromiso true cexAfterManager
    [⟨⟨1, "C", "c@x", "Dev"⟩, some ⟨"m1", "M", "m@x"⟩,
      some
        [⟨⟨"g3", "t1", "c@x", "s", "x"⟩, "MEETING_SCHEDULED",
          ⟨some "A", none, none, none, none⟩, ⟨true, none, none⟩⟩,
         ⟨⟨"g4", "t1", "c@x", "s", "x"⟩, "MEETING_SCHEDULED",
          ⟨some "B", none, none, none, none⟩, ⟨true, none, none⟩⟩]⟩]).1

set_option maxRecDepth 4000 in
/-- C3 is false as stated: a reachable state (fresh database, two
manager proposals, then two candidate replies each matching a different
open slot) ends with two `accepted` slots for the same candidate — the
second acceptance ran although another slot was already accepted. -/
theorem two_accepted_slots_reachable :
    (accepted_slots cexFinal 1).length = 2 := by decide

/-! ## Support lemmas for the acceptance/proposal path theorems -/

/-- The status row returned by `statusOrNew` always carries the asked-for
candidate id. -/
theorem statusOrNew_cid (db : DB) (cid : Nat) :
    (statusOrNew db cid).candidateId = cid := by
  unfold statusOrNew
  cases hf : db.statuses.find? (fun s => decide (s.candidateId = cid)) with
  | none => rfl
  | some s =>
    have := List.find?_some hf
    simpa using this

/-- `find?` over the row-replacing map used by `upsertStatus`. -/
theorem find_upsert_map (cid : Nat) (s : CandStatusRec)
    (hs : s.candidateId = cid) :
    ∀ l : List CandStatusRec,
      (l.map (fun t => if t.candidateId = cid then s else t)).find?
          (fun t => decide (t.candidateId = cid)) =
        (l.find? (fun t => decide (t.candidateId = cid))).map (fun _ => s) := by
  intro l
  induction l with
  | nil => rfl
  | cons t rest ih =>
    by_cases ht : t.candidateId = cid
    · simp [List.find?, ht, hs]
    · simp [List.find?, ht, ih]

/-- Reading back the status row just written by `upsertStatus` yields
exactly that row. -/
theorem statusOrNew_upsertStatus (db : DB) (s : CandStatusRec) :
    statusOrNew (upsertStatus db s) s.candidateId = s := by
  unfold statusOrNew upsertStatus
  by_cases hany : db.statuses.any (fun t => decide (t.candidateId = s.candidateId))
  · simp only [hany, if_true]
    rw [find_upsert_map s.candidateId s rfl]
    obtain ⟨t, ht, hpt⟩ := List.any_eq_true.mp hany
    cases hf : db.statuses.find? (fun t => decide (t.candidateId = s.candidateId)) with
    | none =>
      exfalso
      have := List.find?_eq_none.mp hf t ht
      exact this hpt
    | some w => simp
  · simp [hany, List.find?]

/-- `statusOrNew_upsertStatus`, stated with an explicit id equation. -/
theorem statusOrNew_upsertStatus_of_cid (db : DB) (s : CandStatusRec)
    (cid : Nat) (h : s.candidateId = cid) :
    statusOrNew (upsertStatus db s) cid = s := by
  rw [← h]
  exact statusOrNew_upsertStatus db s

/-- `statusOrNew` reads only the status table. -/
theorem statusOrNew_congr (db db' : DB) (cid : Nat)
    (h : db.statuses = db'.statuses) : statusOrNew db cid = statusOrNew db' cid := by
  unfold statusOrNew
  rw [h]

/-- Open-applicant-slot rows are rows of the slot table. -/
theorem latest_open_applicant_slots_subset (db : DB) (cid : Nat) (k : Nat)
    (s : Slot) (h : s ∈ latest_open_applicant_slots db cid k) : s ∈ db.slots := by
  unfold latest_open_applicant_slots at h
  exact List.mem_of_mem_filter (List.mem_of_mem_take h)

/-- The open-slot queries read only the slot table. -/
theorem latest_open_applicant_slots_congr (db db' : DB) (cid k : Nat)
    (h : db.slots = db'.slots) :
    latest_open_applicant_slots db cid k = latest_open_applicant_slots db' cid k := by
  unfold latest_open_applicant_slots
  rw [h]

/-- When the candidate has at least one open applicant-proposed slot,
the confirm-like branch always selects a slot, and that slot is (up to
the end-time backfill) a row of the open list: id, start, candidate and
status are those of an open row. -/
theorem manager_match_slot_of_ne_nil (fromiso : String → Option PyDT)
    (L : List Slot) (meta : MetaR) (h : L ≠ []) :
    ∃ ms, manager_match_slot fromiso L meta = some ms ∧
      ∃ ms0 ∈ L, ms.id = ms0.id ∧ ms.startTime = ms0.startTime ∧
        ms.candidateId = ms0.candidateId ∧ ms.status = ms0.status := by
  have hmain : manager_match_slot fromiso L meta =
      (match (match (manager_target fromiso meta).1 with
        | some t =>
          L.find? (fun (s : Slot) => within_tolerance s.startTime t 5)
        | none => none) with
      | some s =>
        some (if (manager_target fromiso meta).2.isSome && s.endTime = none
          then { s with endTime := (manager_target fromiso meta).2 } else s)
      | none => L.head?) := by
    unfold manager_match_slot
    rfl
  rw [hmain]
  cases hm : (match (manager_target fromiso meta).1 with
    | some t =>
      L.find? (fun (s : Slot) => within_tolerance s.startTime t 5)
    | none => none) with
  | some s =>
    have hsl : s ∈ L := by
      cases ht : (manager_target fromiso meta).1 with
      | some t =>
        rw [ht] at hm
        exact List.mem_of_find?_eq_some hm
      | none => rw [ht] at hm; exact absurd hm (by simp)
    refine ⟨_, rfl, s, hsl, ?_⟩
    split <;> simp
  | none =>
    cases hL : L with
    | nil => exact absurd hL h
    | cons hd tl =>
      subst hL
      exact ⟨hd, rfl, hd, by simp, rfl, rfl, rfl, rfl⟩

/-- `updateSlot` leaves events unchanged. -/
theorem updateSlot_events (db : DB) (sid : Nat) (f : Slot → Slot) :
    (updateSlot db sid f).events = db.events := rfl

/-- `updateSlot` leaves statuses unchanged. -/
theorem updateSlot_statuses (db : DB) (sid : Nat) (f : Slot → Slot) :
    (updateSlot db sid f).statuses = db.statuses := rfl

/-- `addMsg` leaves events unchanged. -/
theorem addMsg_events (db : DB) (m : MsgRec) : (addMsg db m).events = db.events :=
  rfl

/-- `addEvent` leaves statuses unchanged. -/
theorem addEvent_statuses (db : DB) (cid : Nat) (ty : String)
    (sid : Option Nat) : (addEvent db cid ty sid).statuses = db.statuses := rfl

/-- C2 (amended): whenever an inbound manager message matches the
quick-confirm regex or carries a confirm-like LLM intent AND the
candidate has at least one open applicant-proposed slot (else the
branch falls through, see
`quick_confirm_without_open_slot_falls_through`), the loop marks one
open applicant-proposed slot accepted (the one matching a restated time
within tolerance, else the most recent), sets the status cache to
"Interview Confirmed" with `final_meeting_time`, emits exactly the
generic intent event plus `MANAGER_ACCEPTED`, and commits these — then
the branch's bare `from google_calendar_service import ...` raises
`ModuleNotFoundError`, so no calendar event is created and no email is
sent: the only effect is the mark-read attempt, the message is counted
as an error, no slot row or outbound message is added, and every later
intent branch is skipped. -/
theorem manager_confirm_accepts_open_applicant_slot
    (fromiso : String → Option PyDT) (db : DB) (c : Cand) (mgr : Mgr)
    (e : Email) (intent : String) (meta : MetaR) (cal : CalRes) (u : Bool)
    (r : DB × List Eff × PMOut)
    (hfresh : db.msgs.any (fun m => decide (m.gmailId = e.id)) = false)
    (hconfirm :
      (quick_confirm e.body || decide (pyUpper intent ∈ ALLOWED_CONFIRM)) = true)
    (hopen : latest_open_applicant_slots db c.id 5 ≠ [])
    (hr : r = ingest_manager_msg fromiso db (some c) mgr e intent meta cal u) :
    ∃ ms0 ∈ latest_open_applicant_slots db c.id 5,
      r.2.2 = PMOut.errored ∧
      (∃ s' ∈ r.1.slots,
        s'.id = ms0.id ∧ s'.status = "accepted" ∧
        s'.startTime = ms0.startTime) ∧
      (statusOrNew r.1 c.id).currentStatus = some "Interview Confirmed" ∧
      (statusOrNew r.1 c.id).finalMeetingTime = some ms0.startTime ∧
      r.1.events =
        ⟨c.id, "MANAGER_ACCEPTED", some ms0.id⟩ :: ⟨c.id, intent, none⟩ ::
          db.events ∧
      r.1.msgs = ⟨e.id, "inbound", some intent⟩ :: db.msgs ∧
      r.1.slots.length = db.slots.length ∧
      r.2.1 = (if u && e.id ≠ "" then [Eff.markRead e.id] else []) := by
  have hLL : latest_open_applicant_slots
      (upsertStatus (addEvent (addMsg db ⟨e.id, "inbound", some intent⟩) c.id
        intent none)
        (statusOrNew (addEvent (addMsg db ⟨e.id, "inbound", some intent⟩) c.id
          intent none) c.id)) c.id 5 =
      latest_open_applicant_slots db c.id 5 :=
    latest_open_applicant_slots_congr _ _ _ _
      (by rw [upsertStatus_slots, addEvent_slots, addMsg_slots])
  obtain ⟨ms, hms, ms0, hmem, hid, hstart, hcand, hstatus⟩ :=
    manager_match_slot_of_ne_nil fromiso (latest_open_applicant_slots db c.id 5)
      meta hopen
  have hr' : r =
      (addEvent
        (upsertStatus
          (updateSlot
            (upsertStatus (addEvent (addMsg db ⟨e.id, "inbound", some intent⟩)
              c.id intent none)
              (statusOrNew (addEvent (addMsg db ⟨e.id, "inbound", some intent⟩)
                c.id intent none) c.id))
            ms.id (fun _ => { ms with status := "accepted" }))
          { statusOrNew (addEvent (addMsg db ⟨e.id, "inbound", some intent⟩)
              c.id intent none) c.id with
            currentStatus := some "Interview Confirmed",
            finalMeetingTime := some ms.startTime })
        c.id "MANAGER_ACCEPTED" (some ms.id),
       (if u && e.id ≠ "" then [Eff.markRead e.id] else []),
       PMOut.errored) := by
    rw [hr]
    unfold ingest_manager_msg
    simp only [hfresh, Bool.false_eq_true, if_false, hconfirm, if_true, hLL,
      hms]
  clear hr
  subst hr'
  have hmem' : ms0 ∈ db.slots := latest_open_applicant_slots_subset _ _ _ _ hmem
  have hcid : ({ statusOrNew (addEvent (addMsg db ⟨e.id, "inbound", some intent⟩)
      c.id intent none) c.id with
      currentStatus := some "Interview Confirmed",
      finalMeetingTime := some ms.startTime } : CandStatusRec).candidateId =
      c.id := statusOrNew_cid _ _
  have hsn : statusOrNew
      (addEvent
        (upsertStatus
          (updateSlot
            (upsertStatus (addEvent (addMsg db ⟨e.id, "inbound", some intent⟩)
              c.id intent none)
              (statusOrNew (addEvent (addMsg db ⟨e.id, "inbound", some intent⟩)
                c.id intent none) c.id))
            ms.id (fun _ => { ms with status := "accepted" }))
          { statusOrNew (addEvent (addMsg db ⟨e.id, "inbound", some intent⟩)
              c.id intent none) c.id with
            currentStatus := some "Interview Confirmed",
            finalMeetingTime := some ms.startTime })
        c.id "MANAGER_ACCEPTED" (some ms.id)) c.id =
      { statusOrNew (addEvent (addMsg db ⟨e.id, "inbound", some intent⟩)
          c.id intent none) c.id with
        currentStatus := some "Interview Confirmed",
        finalMeetingTime := some ms.startTime } := by
    rw [statusOrNew_congr _ _ c.id (by rw [addEvent_statuses])]
    exact statusOrNew_upsertStatus_of_cid _ _ _ hcid
  refine ⟨ms0, hmem, rfl, ?_, ?_, ?_, ?_, ?_, ?_, rfl⟩
  · refine ⟨{ ms with status := "accepted" }, ?_, hid, rfl, hstart⟩
    simp only [addEvent_slots, upsertStatus_slots, updateSlot]
    exact List.mem_map.mpr ⟨ms0, hmem', by rw [← hid]; simp⟩
  · rw [hsn]
  · rw [hsn, hstart]
  · simp only [addEvent, upsertStatus_events, updateSlot_events,
      upsertStatus_events, addMsg_events, hid]
  · simp only [addEvent_msgs, upsertStatus_msgs, updateSlot_msgs,
      upsertStatus_msgs, addMsg_msgs]
  · simp only [addEvent_slots, upsertStatus_slots, updateSlot, addMsg_slots,
      List.length_map]

/-- Witness for C2's amended theorem: a quick-confirm reply ("I agree")
with one open applicant slot at instant 1000 — the slot is accepted and
the status cache moves, but the branch ends in the swallowed import
error with only the mark-read attempted. -/
theorem manager_confirm_accepts_open_applicant_slot_witness :
    ∃ ms0 ∈ latest_open_applicant_slots
        ⟨[⟨0, 1, "applicant", 1000, none, "proposed"⟩], [], [], [], 1⟩ 1 5,
      (ingest_manager_msg (fun _ => none)
          ⟨[⟨0, 1, "applicant", 1000, none, "proposed"⟩], [], [], [], 1⟩
          (some ⟨1, "C", "c@x", "Dev"⟩) ⟨"m1", "M", "m@x"⟩
          ⟨"g5", "t", "m@x", "s", "I agree"⟩ "OTHER"
          ⟨none, none, none, none, none⟩ ⟨true, none, none⟩ true).2.2 =
        PMOut.errored ∧
      (∃ s' ∈ (ingest_manager_msg (fun _ => none)
          ⟨[⟨0, 1, "applicant", 1000, none, "proposed"⟩], [], [], [], 1⟩
          (some ⟨1, "C", "c@x", "Dev"⟩) ⟨"m1", "M", "m@x"⟩
          ⟨"g5", "t", "m@x", "s", "I agree"⟩ "OTHER"
          ⟨none, none, none, none, none⟩ ⟨true, none, none⟩ true).1.slots,
        s'.id = ms0.id ∧ s'.status = "accepted" ∧
        s'.startTime = ms0.startTime) ∧
      (statusOrNew (ingest_manager_msg (fun _ => none)
          ⟨[⟨0, 1, "applicant", 1000, none, "proposed"⟩], [], [], [], 1⟩
          (some ⟨1, "C", "c@x", "Dev"⟩) ⟨"m1", "M", "m@x"⟩
          ⟨"g5", "t", "m@x", "s", "I agree"⟩ "OTHER"
          ⟨none, none, none, none, none⟩ ⟨true, none, none⟩ true).1
          1).currentStatus = some "Interview Confirmed" ∧
      (ingest_manager_msg (fun _ => none)
          ⟨[⟨0, 1, "applicant", 1000, none, "proposed"⟩], [], [], [], 1⟩
          (some ⟨1, "C", "c@x", "Dev"⟩) ⟨"m1", "M", "m@x"⟩
          ⟨"g5", "t", "m@x", "s", "I agree"⟩ "OTHER"
          ⟨none, none, none, none, none⟩ ⟨true, none, none⟩ true).2.1 =
        [Eff.markRead "g5"] := by
  obtain ⟨ms0, hmem, h1, h2, h3, _, _, _, _, h8⟩ :=
    manager_confirm_accepts_open_applicant_slot (fun _ => none)
      ⟨[⟨0, 1, "applicant", 1000, none, "proposed"⟩], [], [], [], 1⟩
      ⟨1, "C", "c@x", "Dev"⟩ ⟨"m1", "M", "m@x"⟩
      ⟨"g5", "t", "m@x", "s", "I agree"⟩ "OTHER"
      ⟨none, none, none, none, none⟩ ⟨true, none, none⟩ true _
      (by decide) (by decide) (by decide) rfl
  refine ⟨ms0, hmem, h1, h2, h3, ?_⟩
  rw [h8]
  decide

/-- The concrete run refuting C2 as stated: body "I agree" (matches the
quick-confirm regex), classified `REJECTION`, no open applicant slot. -/
def cex2 : DB × List Eff × PMOut :=
  ingest_manager_msg (fun _ => none) ⟨[], [], [], [], 0⟩
    (some ⟨1, "C", "c@x", "Dev"⟩) ⟨"m1", "M", "m@x"⟩
    ⟨"g9", "t", "m@x", "s", "I agree"⟩ "REJECTION"
    ⟨none, none, none, none, none⟩ ⟨true, none, none⟩ true

set_option maxRecDepth 4000 in
/-- C2 is false as stated: this manager message matches the
quick-confirm regex, yet — the candidate having no open
applicant-proposed slot and no restated time — no slot is accepted, no
calendar event or email is emitted (effects are just the mark-read), and
the later `REJECTION` branch runs, setting "Rejected by Manager". -/
theorem quick_confirm_without_open_slot_falls_through :
    quick_confirm "I agree" = true ∧
    (statusOrNew cex2.1 1).currentStatus = some "Rejected by Manager" ∧
    accepted_slots cex2.1 1 = [] ∧
    cex2.1.events = [⟨1, "REJECTION", none⟩] ∧
    cex2.2.1 = [Eff.markRead "g9"] := by decide

/-- `create_applicant_slots` leaves events unchanged. -/
theorem create_applicant_slots_events (fromiso : String → Option PyDT)
    (cid : Nat) : ∀ (ps : List SlotPair) (db : DB),
    (create_applicant_slots fromiso db cid ps).1.events = db.events := by
  intro ps
  induction ps with
  | nil => intro db; rfl
  | cons p rest ih =>
    intro db
    unfold create_applicant_slots
    cases hp : parse_iso_instant fromiso p.pstart with
    | none => exact ih db
    | some st =>
      simpa using ih (addSlot db cid "applicant" st (parse_pend fromiso p))

/-- `create_applicant_slots` leaves statuses unchanged. -/
theorem create_applicant_slots_statuses (fromiso : String → Option PyDT)
    (cid : Nat) : ∀ (ps : List SlotPair) (db : DB),
    (create_applicant_slots fromiso db cid ps).1.statuses = db.statuses := by
  intro ps
  induction ps with
  | nil => intro db; rfl
  | cons p rest ih =>
    intro db
    unfold create_applicant_slots
    cases hp : parse_iso_instant fromiso p.pstart with
    | none => exact ih db
    | some st =>
      simpa using ih (addSlot db cid "applicant" st (parse_pend fromiso p))

/-- What `create_applicant_slots` does to the slot table: it prepends
one fresh `applicant`/`proposed` row per stated time whose start parses
(and counts them), leaving every pre-existing row in place unchanged. -/
theorem create_applicant_slots_spec (fromiso : String → Option PyDT)
    (cid : Nat) : ∀ (ps : List SlotPair) (db : DB),
    ∃ new : List Slot,
      (create_applicant_slots fromiso db cid ps).1.slots = new ++ db.slots ∧
      new.length =
        ps.countP (fun p => (parse_iso_instant fromiso p.pstart).isSome) ∧
      (create_applicant_slots fromiso db cid ps).2 =
        ps.countP (fun p => (parse_iso_instant fromiso p.pstart).isSome) ∧
      ∀ s ∈ new, s.candidateId = cid ∧ s.proposedBy = "applicant" ∧
        s.status = "proposed" := by
  intro ps
  induction ps with
  | nil =>
    intro db
    exact ⟨[], rfl, rfl, rfl, by simp⟩
  | cons p rest ih =>
    intro db
    cases hp : parse_iso_instant fromiso p.pstart with
    | none =>
      have hstep : create_applicant_slots fromiso db cid (p :: rest) =
          create_applicant_slots fromiso db cid rest := by
        simp only [create_applicant_slots, hp]
      obtain ⟨new, h1, h2, h3, h4⟩ := ih db
      refine ⟨new, ?_, ?_, ?_, h4⟩
      · rw [hstep, h1]
      · rw [h2, List.countP_cons]
        simp [hp]
      · rw [hstep, h3, List.countP_cons]
        simp [hp]
    | some st =>
      have hstep : create_applicant_slots fromiso db cid (p :: rest) =
          ((create_applicant_slots fromiso
              (addSlot db cid "applicant" st (parse_pend fromiso p)) cid
              rest).1,
           (create_applicant_slots fromiso
              (addSlot db cid "applicant" st (parse_pend fromiso p)) cid
              rest).2 + 1) := by
        simp only [create_applicant_slots, hp]
      obtain ⟨new, h1, h2, h3, h4⟩ :=
        ih (addSlot db cid "applicant" st (parse_pend fromiso p))
      refine ⟨new ++ [⟨db.nextSlotId, cid, "applicant", st,
        parse_pend fromiso p, "proposed"⟩], ?_, ?_, ?_, ?_⟩
      · rw [hstep]
        show (create_applicant_slots fromiso
            (addSlot db cid "applicant" st (parse_pend fromiso p)) cid
            rest).1.slots = _
        rw [h1]
        simp [addSlot]
      · rw [List.countP_cons]
        simp [hp, h2]
      · rw [hstep]
        show (create_applicant_slots fromiso
            (addSlot db cid "applicant" st (parse_pend fromiso p)) cid
            rest).2 + 1 = _
        rw [h3, List.countP_cons]
        simp [hp]
      · intro s hs
        rcases List.mem_append.mp hs with hs | hs
        · exact h4 s hs
        · rw [List.mem_singleton] at hs
          rw [hs]
          exact ⟨rfl, rfl, rfl⟩

/-- `statusOrNew` is unaffected by an event insert. -/
theorem statusOrNew_addEvent (db : DB) (cid' : Nat) (ty : String)
    (sid : Option Nat) (cid : Nat) :
    statusOrNew (addEvent db cid' ty sid) cid = statusOrNew db cid := rfl

/-- C8: when a candidate reply states at least one parseable time and
none matches an open manager-proposed slot, the loop creates one new
`InterviewSlot` with `proposed_by = "applicant"`, `status = "proposed"`
per parseable stated time (prepended; every pre-existing row, including
each manager-proposed slot still `proposed`, is carried over unchanged),
sets the status cache to "Awaiting Manager Confirmation", emits a
`CANDIDATE_PROPOSED` event and emails the manager the new proposal. -/
theorem candidate_counterproposal_creates_applicant_slots
    (fromiso : String → Option PyDT) (db : DB) (c : Cand) (mgr : Mgr)
    (openMgrSlots : List Slot) (e : Email) (intent : String) (meta : MetaR)
    (cal : CalRes) (u : Bool) (r : DB × List Eff × PMOut)
    (hfresh : db.msgs.any (fun m => decide (m.gmailId = e.id)) = false)
    (hnomatch : first_matching_stated_time fromiso openMgrSlots
      (collect_stated_slots meta) = none)
    (hparse : 0 < (collect_stated_slots meta).countP
      (fun p => (parse_iso_instant fromiso p.pstart).isSome))
    (hr : r = ingest_candidate_msg fromiso db c mgr openMgrSlots e intent meta
      cal u) :
    r.2.2 = PMOut.processed ∧
    (∃ new : List Slot,
      r.1.slots = new ++ db.slots ∧
      new.length = (collect_stated_slots meta).countP
        (fun p => (parse_iso_instant fromiso p.pstart).isSome) ∧
      new ≠ [] ∧
      ∀ s ∈ new, s.candidateId = c.id ∧ s.proposedBy = "applicant" ∧
        s.status = "proposed") ∧
    (statusOrNew r.1 c.id).currentStatus =
      some "Awaiting Manager Confirmation" ∧
    r.1.events = ⟨c.id, "CANDIDATE_PROPOSED", none⟩ :: db.events ∧
    Eff.emailSent mgr.email ("Candidate proposed new time – " ++ c.name) ∈
      r.2.1 := by
  obtain ⟨new, hs1, hs2, hs3, hs4⟩ :=
    create_applicant_slots_spec fromiso c.id (collect_stated_slots meta)
      (upsertStatus (addMsg db ⟨e.id, "inbound", some intent⟩)
        (statusOrNew (addMsg db ⟨e.id, "inbound", some intent⟩) c.id))
  have hpos : (create_applicant_slots fromiso
      (upsertStatus (addMsg db ⟨e.id, "inbound", some intent⟩)
        (statusOrNew (addMsg db ⟨e.id, "inbound", some intent⟩) c.id)) c.id
      (collect_stated_slots meta)).2 > 0 := by
    rw [hs3]; exact hparse
  have hr' : r =
      (addEvent (upsertStatus
        (create_applicant_slots fromiso
          (upsertStatus (addMsg db ⟨e.id, "inbound", some intent⟩)
            (statusOrNew (addMsg db ⟨e.id, "inbound", some intent⟩) c.id)) c.id
          (collect_stated_slots meta)).1
        { statusOrNew (addMsg db ⟨e.id, "inbound", some intent⟩) c.id with
          currentStatus := some "Awaiting Manager Confirmation" })
        c.id "CANDIDATE_PROPOSED" none,
       [Eff.emailSent mgr.email ("Candidate proposed new time – " ++ c.name)] ++
         (if u then [Eff.markRead e.id] else []),
       PMOut.processed) := by
    rw [hr]
    unfold ingest_candidate_msg
    simp only [hfresh, Bool.false_eq_true, if_false, hnomatch, hpos, if_true]
  subst hr'
  refine ⟨rfl, ⟨new, ?_, hs2, ?_, hs4⟩, ?_, ?_, ?_⟩
  · rw [addEvent_slots, upsertStatus_slots, hs1, upsertStatus_slots,
      addMsg_slots]
  · have : 0 < new.length := by rw [hs2]; exact hparse
    exact List.ne_nil_of_length_pos this
  · rw [statusOrNew_addEvent]
    rw [statusOrNew_upsertStatus_of_cid _
      ({ statusOrNew (addMsg db ⟨e.id, "inbound", some intent⟩) c.id with
         currentStatus := some "Awaiting Manager Confirmation" })
      c.id (statusOrNew_cid _ _)]
  · rw [addEvent, upsertStatus_events, create_applicant_slots_events,
      upsertStatus_events, addMsg_events]
  · simp

/-- Witness for C8: a candidate states time `"A"` (instant 1000) with no
open manager slot to match; one applicant-proposed row is created and
the status cache moves to "Awaiting Manager Confirmation". -/
theorem candidate_counterproposal_creates_applicant_slots_witness :
    (ingest_candidate_msg (fun s => if s = "A" then some ⟨1000, none⟩ else none)
        ⟨[], [], [], [], 0⟩ ⟨1, "C", "c@x", "Dev"⟩ ⟨"m1", "M", "m@x"⟩ []
        ⟨"g6", "t", "c@x", "s", "x"⟩ "MEETING_SCHEDULED"
        ⟨some "A", none, none, none, none⟩ ⟨true, none, none⟩ true).2.2 =
      PMOut.processed ∧
    (∃ new : List Slot,
      (ingest_candidate_msg (fun s => if s = "A" then some ⟨1000, none⟩ else none)
          ⟨[], [], [], [], 0⟩ ⟨1, "C", "c@x", "Dev"⟩ ⟨"m1", "M", "m@x"⟩ []
          ⟨"g6", "t", "c@x", "s", "x"⟩ "MEETING_SCHEDULED"
          ⟨some "A", none, none, none, none⟩ ⟨true, none, none⟩ true).1.slots =
        new ++ [] ∧
      new.length = (collect_stated_slots ⟨some "A", none, none, none, none⟩).countP
        (fun p => (parse_iso_instant
          (fun s => if s = "A" then some ⟨1000, none⟩ else none) p.pstart).isSome) ∧
      new ≠ [] ∧
      ∀ s ∈ new, s.candidateId = 1 ∧ s.proposedBy = "applicant" ∧
        s.status = "proposed") := by
  obtain ⟨h1, h2, _⟩ :=
    candidate_counterproposal_creates_applicant_slots
      (fun s => if s = "A" then some ⟨1000, none⟩ else none)
      ⟨[], [], [], [], 0⟩ ⟨1, "C", "c@x", "Dev"⟩ ⟨"m1", "M", "m@x"⟩ []
      ⟨"g6", "t", "c@x", "s", "x"⟩ "MEETING_SCHEDULED"
      ⟨some "A", none, none, none, none⟩ ⟨true, none, none⟩ true _
      (by decide) (by decide) (by decide) rfl
  exact ⟨h1, h2⟩
